import Mathlib

/-!
Verification of the session-state synchronizer of the `web_irc_chat` repository.

The embedding below is a shallow translation of the two source files that
implement the synchronizer:

* `src/components/irc-client.tsx` — React component holding the session state
  (`activeServer`, `channels`, `availableChannels`, `serverLogMessages`,
  `activeChannelId`, dialog flags) and the event-callback implementations
  (`onConnect`, `onDisconnect`, `onError`, `onChannelMessage`, …) together
  with the user-command handlers (`handleConnect`, `executeJoinChannel`,
  `handleSendMessage`, `handleLeaveChannel`, …).
* `src/services/irc-service.ts` — the protocol adapter; of it we embed the
  parts the claims depend on: construction of `Message` payloads for the
  `message` event (`svcMessageEvent`) and the local parsing performed by
  `IrcService.sendMessage` (`svcSendEffects`).

Modelling conventions:

* React `useState` setters become explicit state passing over `ClientState`;
  each callback is a function `ClientState → … → ClientState` (returning in
  addition a list of `Effect`s for outbound protocol commands and
  user-visible signals/toasts).
* `crypto.randomUUID()` and `Date.now()` are environment inputs; every
  handler that calls them takes them as parameters (`uid : String`,
  `ts : Nat`).  Handlers that create one message per channel in a `map`
  reuse the same `uid`/`ts` for each created message; no claim depends on
  the freshness of message ids.
* JavaScript `===` on strings is `==`; `toLowerCase()` (ASCII casefold,
  matching the reference behavior named in the spec), `startsWith`, `trim`,
  `split(' ')`, `join(' ')`, `substring(4)` and `includes` are the
  structurally recursive `jsToLower`, `jsStartsWith`, `jsTrim`,
  `jsSplitSpace`, `jsJoinSpace`, `jsDrop` and `jsIncludes` below (the
  corresponding `String` library functions are position-based and do not
  evaluate inside the kernel).
* JavaScript truthiness on optional strings (`undefined` and `""` are
  falsy) is modelled explicitly at each use site.
* `Array.prototype.sort(cmp)` (stable per ECMAScript 2019) is modelled as
  `List.mergeSort` — the stable sort of the Lean library — ordered by
  `cmp a b ≤ 0`.
* `String.prototype.localeCompare` is a host collation function outside the
  repository; the sort handler is parametrized over it
  (`lc : String → String → Int`).  Theorems instantiate it with `lcModel`,
  case-insensitive ASCII comparison, the reading the specification takes.
* Toast notifications that the claims refer to (the `AlreadyJoined` signal,
  the self-kick "no longer valid as an active view" signal) are modelled as
  `Effect` values; purely decorative toasts are modelled likewise where the
  corresponding handler emits them.
-/

/-- Message type tags, from the `type` union of `Message` in `src/lib/types.ts`. -/
inductive MessageType where
  | message | notice | action | join | part | quit | kick | nick
  | mode | topic | system | error | info | raw
deriving Repr, DecidableEq, Inhabited

/-- The `Message` interface of `src/lib/types.ts`.  Optional fields are
`Option`s; the optional boolean `isSelf` defaults to `false` (JS
`undefined` is falsy everywhere the source reads it). -/
structure Message where
  id : String
  timestamp : Nat
  nickname : Option String := none
  target : String
  content : String
  type : MessageType
  channelId : String
  isSelf : Bool := false
  oldNickname : Option String := none
  kicked : Option String := none
  kickReason : Option String := none
  modeParams : Option (List String) := none
  rawLine : Option String := none
deriving Repr, DecidableEq, Inhabited

/-- The `User` interface of `src/lib/types.ts` (fields the synchronizer
reads or writes). -/
structure User where
  id : String
  nickname : String
  username : Option String := none
  hostname : Option String := none
  modes : Option (List String) := none
  isOp : Option Bool := none
  isVoice : Option Bool := none
deriving Repr, DecidableEq, Inhabited

/-- A channel topic, the `topic` field of `Channel` in `src/lib/types.ts`. -/
structure Topic where
  text : String
  setter : Option String := none
  timestamp : Option Nat := none
deriving Repr, DecidableEq, Inhabited

/-- The `Channel` interface of `src/lib/types.ts`. -/
structure Channel where
  id : String
  serverId : String
  name : String
  topic : Option Topic := none
  users : List User
  messages : List Message
deriving Repr, DecidableEq, Inhabited

/-- The `AvailableChannelInfo` interface of `src/lib/types.ts`. -/
structure AvailableChannelInfo where
  id : String
  serverId : String
  name : String
  topic : Option String := none
  userCount : Option Nat := none
  modes : Option String := none
deriving Repr, DecidableEq, Inhabited

/-- The `ServerConnection` interface of `src/lib/types.ts`.  The optional
`isConnecting` flag is modelled as a plain `Bool` (JS `undefined` is read
as falsy by every consumer in the source). -/
structure ServerConnection where
  id : String
  host : String
  port : Nat
  nickname : String
  password : Option String := none
  realName : Option String := none
  email : Option String := none
  isConnected : Bool
  isConnecting : Bool := false
deriving Repr, DecidableEq, Inhabited

/-- The React state of `IrcClient` in `src/components/irc-client.tsx`
(the `useState` hooks the synchronizer logic touches; the connect/settings
dialog booleans are pure presentation and never read by the handlers). -/
structure ClientState where
  activeServer : Option ServerConnection := none
  channels : List Channel := []
  availableChannels : List AvailableChannelInfo := []
  serverLogMessages : List Message := []
  activeChannelId : Option String := none
  joinChannelName : String := ""
  isListingChannels : Bool := false
  isServerLogDialogOpen : Bool := false
deriving Repr, DecidableEq, Inhabited

/-- Outbound protocol commands and user-visible signals produced by the
handlers.  `cmd…` constructors are the calls into `IrcService` (the
Protocol Event Source boundary); `toast…` constructors are the toasts the
source fires; `activeViewInvalidated` is the toast fired by `onKick` when
the kicked nick is the session's own (the "no longer valid as an active
view" signal of the specification, carrying the channel name). -/
inductive Effect where
  | cmdConnect (host : String) (port : Nat) (nickname : String)
  | cmdDisconnect
  | cmdJoin (channelName : String)
  | cmdPart (channelName : String) (reason : String)
  | cmdPrivmsg (target text : String)
  | cmdAction (target text : String)
  | cmdNotice (target text : String)
  | cmdNick (newNick : String)
  | cmdList
  | cmdRaw (line : String)
  | queryInfo (nick : String)
  | toastConnected (sid : String)
  | toastDisconnected (sid : String)
  | toastError (content : String)
  | toastAlreadyJoined (channelName : String)
  | toastJoining (channelName : String)
  | toastTopicChanged (channelName topic : String)
  | toastChannelLeft (channelName : String)
  | activeViewInvalidated (channelName : String)
deriving Repr, DecidableEq, Inhabited

/-- JavaScript `x || d` for an optional string `x` (both `undefined` and
`""` are falsy). -/
def jsOrStr (x : Option String) (d : String) : String :=
  match x with
  | some s => if s = "" then d else s
  | none => d

/-- JavaScript `toLowerCase()` (ASCII casefold), as a structurally
recursive map over the character data so that concrete states evaluate
inside the kernel. -/
def jsToLower (s : String) : String :=
  String.mk (s.data.map Char.toLower)

/-- JavaScript `startsWith(pre)`. -/
def jsStartsWith (s pre : String) : Bool :=
  pre.data.isPrefixOf s.data

/-- JavaScript `trim()`: strip leading and trailing whitespace. -/
def jsTrim (s : String) : String :=
  String.mk
    (((s.data.dropWhile Char.isWhitespace).reverse.dropWhile
        Char.isWhitespace).reverse)

/-- JavaScript `substring(n)` in characters. -/
def jsDrop (s : String) (n : Nat) : String :=
  String.mk (s.data.drop n)

/-- Accumulator loop for `jsSplitSpace`. -/
def jsSplitSpaceAux : List Char → List Char → List String
  | [], acc => [String.mk acc.reverse]
  | c :: rest, acc =>
    if c = ' ' then String.mk acc.reverse :: jsSplitSpaceAux rest []
    else jsSplitSpaceAux rest (c :: acc)

/-- JavaScript `split(' ')` on a single-space separator. -/
def jsSplitSpace (s : String) : List String :=
  jsSplitSpaceAux s.data []

/-- JavaScript `join(' ')`. -/
def jsJoinSpace : List String → String
  | [] => ""
  | [x] => x
  | x :: xs => x ++ " " ++ jsJoinSpace xs

/-- JavaScript `includes(c)` for a single character. -/
def jsIncludes (s : String) (c : Char) : Bool :=
  s.data.contains c

/-- Strict lexicographic order on character data (the character order of
the host, restricted to what the discovery-sort model needs). -/
def lexLt : List Char → List Char → Bool
  | [], [] => false
  | [], _ :: _ => true
  | _ :: _, [] => false
  | a :: as, b :: bs =>
    if a < b then true else if b < a then false else lexLt as bs

/-- Case-insensitive "less or equal" on strings: the ascending
case-insensitive name order the specification describes. -/
def ciLe (a b : String) : Bool :=
  !(lexLt (jsToLower b).data (jsToLower a).data)

/-- Error types classified as connection-class in `onError`
(`irc-client.tsx` line 96). -/
def connectionErrorTypes : List String :=
  ["ErrorLookingUpHost", "SocketError", "ConnectionRefused"]

/-- The `onConnect` callback (`irc-client.tsx` lines 76-82): mark the
matching server connected, append a "Connected" info message to the server
log, toast, and request the channel list. -/
def onConnect (s : ClientState) (sid : String) (uid : String) (ts : Nat) :
    ClientState × List Effect :=
  ({ s with
      activeServer := match s.activeServer with
        | some prev =>
          if prev.id == sid then
            some { prev with isConnected := true, isConnecting := false }
          else some prev
        | none => none,
      serverLogMessages := s.serverLogMessages ++
        [{ id := uid, timestamp := ts, target := sid,
           content := "Connected to " ++ sid ++ ".", type := .info,
           channelId := sid }] },
   [.toastConnected sid, .cmdList])

/-- The `onDisconnect` callback (`irc-client.tsx` lines 83-91): clear the
connection flags (or drop the server entirely on id mismatch), append the
reason to the server log, clear channels, discovery list and active view,
close the server-log dialog. -/
def onDisconnect (s : ClientState) (sid : String) (reason : Option String)
    (uid : String) (ts : Nat) : ClientState × List Effect :=
  ({ s with
      activeServer := match s.activeServer with
        | some prev =>
          if prev.id == sid then
            some { prev with isConnected := false, isConnecting := false }
          else none
        | none => none,
      serverLogMessages := s.serverLogMessages ++
        [{ id := uid, timestamp := ts, target := sid,
           content := "Disconnected from " ++ sid ++ ". Reason: " ++
             jsOrStr reason "Unknown",
           type := .info, channelId := sid }],
      channels := [],
      availableChannels := [],
      activeChannelId := none,
      isServerLogDialogOpen := false },
   [.toastDisconnected sid])

/-- The `onError` callback (`irc-client.tsx` lines 92-99): append a
classified error message to the server log; additionally, for the three
connection-class error types, clear the connection flags (or drop the
server on id mismatch).  Channels and the discovery list are not touched. -/
def onError (s : ClientState) (sid etype emsg : String) (uid : String)
    (ts : Nat) : ClientState × List Effect :=
  let content := "Error on " ++ sid ++ ": " ++ etype ++ " - " ++ emsg
  let s1 := { s with
      serverLogMessages := s.serverLogMessages ++
        [{ id := uid, timestamp := ts, target := sid, content := content,
           type := .error, channelId := sid }] }
  (if connectionErrorTypes.contains etype then
    { s1 with
        activeServer := match s1.activeServer with
          | some prev =>
            if prev.id == sid then
              some { prev with isConnected := false, isConnecting := false }
            else none
          | none => none }
   else s1,
   [.toastError content])

/-- The `onServerMessage` callback (`irc-client.tsx` lines 100-102):
append the received message to the server log verbatim. -/
def onServerMessage (s : ClientState) (msg : Message) : ClientState :=
  { s with serverLogMessages := s.serverLogMessages ++ [msg] }

/-- The `onChannelMessage` callback (`irc-client.tsx` lines 103-134):
append the message to every channel whose id matches, and — when no
channel matched, the target is not a channel, a session is active and the
message carries a (truthy) sender nickname — create a private-message
channel holding exactly the self user, the other party and this one
message.  The JS `channelExists` mutation flag set inside the `map`
callback is translated as a separate `List.any` over the same predicate. -/
def onChannelMessage (s : ClientState) (sid : String) (msg : Message) :
    ClientState :=
  let channelExists := s.channels.any (fun ch => ch.id == msg.channelId)
  let updatedChannels := s.channels.map (fun ch =>
    if ch.id == msg.channelId then
      { ch with messages := ch.messages ++ [msg] }
    else ch)
  match s.activeServer, msg.nickname with
  | some srv, some senderNick =>
    if !channelExists && !(jsStartsWith msg.target "#") && senderNick != "" then
      let pmUserNick := if msg.isSelf then msg.target else senderNick
      { s with channels := updatedChannels ++
          [{ id := msg.channelId, serverId := sid, name := pmUserNick,
             users := [{ id := srv.nickname, nickname := srv.nickname },
                       { id := pmUserNick, nickname := pmUserNick }],
             messages := [msg],
             topic := some { text := "Private messages with " ++ pmUserNick } }] }
    else { s with channels := updatedChannels }
  | _, _ => { s with channels := updatedChannels }

/-- The `onUserJoinedChannel` callback (`irc-client.tsx` lines 135-148):
in the channel `sid ++ channelName`, add the user unless a member with the
same casefolded nickname exists, and append a `join` message regardless. -/
def onUserJoinedChannel (s : ClientState) (sid channelName nick : String)
    (user : User) (uid : String) (ts : Nat) : ClientState :=
  let channelId := sid ++ channelName
  { s with channels := s.channels.map (fun ch =>
      if ch.id == channelId then
        let userExists := ch.users.any
          (fun u => jsToLower u.nickname == jsToLower nick)
        { ch with
            users := if userExists then ch.users else ch.users ++ [user],
            messages := ch.messages ++
              [{ id := uid, timestamp := ts, nickname := some nick,
                 type := .join, content := "", channelId := ch.id,
                 target := channelName }] }
      else ch) }

/-- The `onUserPartedChannel` callback (`irc-client.tsx` lines 149-158):
in the channel `sid ++ channelName`, remove every member whose casefolded
nickname equals the parting nick and append a `part` message. -/
def onUserPartedChannel (s : ClientState) (sid channelName nick : String)
    (reason : Option String) (uid : String) (ts : Nat) : ClientState :=
  let channelId := sid ++ channelName
  { s with channels := s.channels.map (fun ch =>
      if ch.id == channelId then
        { ch with
            users := ch.users.filter
              (fun u => jsToLower u.nickname != jsToLower nick),
            messages := ch.messages ++
              [{ id := uid, timestamp := ts, nickname := some nick,
                 content := jsOrStr reason "", type := .part,
                 channelId := ch.id, target := channelName }] }
      else ch) }

/-- The `onUserQuit` callback (`irc-client.tsx` lines 159-167): in every
channel whose casefolded name is listed in `quitChannels`, remove the
quitting nick and append a `quit` message. -/
def onUserQuit (s : ClientState) (nick : String) (reason : Option String)
    (quitChannels : List String) (uid : String) (ts : Nat) : ClientState :=
  { s with channels := s.channels.map (fun ch =>
      if quitChannels.contains (jsToLower ch.name) then
        { ch with
            users := ch.users.filter
              (fun u => jsToLower u.nickname != jsToLower nick),
            messages := ch.messages ++
              [{ id := uid, timestamp := ts, nickname := some nick,
                 content := jsOrStr reason "", type := .quit,
                 channelId := ch.id, target := ch.name }] }
      else ch) }

/-- The `onNickChange` callback (`irc-client.tsx` lines 168-184): in every
channel where the old nick is a member (casefolded comparison) or whose
casefolded name is listed in `nickChannels`, rewrite the matching members'
`nickname` and `id` to the new nick and append a `nick` message; if the
old nick casefold-equals the session's own nickname, update it. -/
def onNickChange (s : ClientState) (oldNick newNick : String)
    (nickChannels : List String) (uid : String) (ts : Nat) : ClientState :=
  let s1 := { s with channels := s.channels.map (fun ch =>
      let isUserInChannel := ch.users.any
        (fun u => jsToLower u.nickname == jsToLower oldNick)
      if isUserInChannel || nickChannels.contains (jsToLower ch.name) then
        { ch with
            users := ch.users.map (fun u =>
              if jsToLower u.nickname == jsToLower oldNick then
                { u with nickname := newNick, id := newNick }
              else u),
            messages := ch.messages ++
              [{ id := uid, timestamp := ts, oldNickname := some oldNick,
                 nickname := some newNick, type := .nick, content := "",
                 channelId := ch.id, target := ch.name }] }
      else ch) }
  match s.activeServer with
  | some srv =>
    if jsToLower srv.nickname == jsToLower oldNick then
      { s1 with activeServer := some { srv with nickname := newNick } }
    else s1
  | none => s1

/-- The `onTopicChange` callback (`irc-client.tsx` lines 185-191): replace
the topic of the channel `sid ++ channelName`. -/
def onTopicChange (s : ClientState) (sid channelName topic : String)
    (nick : Option String) (ts : Nat) : ClientState × List Effect :=
  let channelId := sid ++ channelName
  ({ s with channels := s.channels.map (fun ch =>
      if ch.id == channelId then
        { ch with topic := some { text := topic, setter := nick,
                                  timestamp := some ts } }
      else ch) },
   [.toastTopicChanged channelName topic])

/-- The `onChannelUserList` callback (`irc-client.tsx` lines 192-197):
replace the member list of the channel `sid ++ channelName` wholesale. -/
def onChannelUserList (s : ClientState) (sid channelName : String)
    (users : List User) : ClientState :=
  let channelId := sid ++ channelName
  { s with channels := s.channels.map (fun ch =>
      if ch.id == channelId then { ch with users := users } else ch) }

/-- The `onAvailableChannelsStart` callback (`irc-client.tsx` lines
198-201): clear the discovery list and raise the listing flag. -/
def onAvailableChannelsStart (s : ClientState) : ClientState :=
  { s with availableChannels := [], isListingChannels := true }

/-- The `onAvailableChannelItem` callback (`irc-client.tsx` lines
202-204): append one discovery entry. -/
def onAvailableChannelItem (s : ClientState)
    (channel : AvailableChannelInfo) : ClientState :=
  { s with availableChannels := s.availableChannels ++ [channel] }

/-- The comparator passed to `Array.prototype.sort` in
`onAvailableChannelsEnd` (`irc-client.tsx` lines 207-218), parametrized
over the host collation function `lc` standing for
`String.prototype.localeCompare`. -/
def availableChannelsCmp (lc : String → String → Int)
    (a b : AvailableChannelInfo) : Int :=
  match a.userCount, b.userCount with
  | some ca, some cb =>
    if cb ≠ ca then (cb : Int) - (ca : Int) else lc a.name b.name
  | some _, none => -1
  | none, some _ => 1
  | none, none => lc a.name b.name

/-- The `onAvailableChannelsEnd` callback (`irc-client.tsx` lines
205-219): lower the listing flag and stable-sort the discovery list by the
comparator (ECMAScript `sort` is stable; modelled by `List.mergeSort`
ordered by comparator value `≤ 0`). -/
def onAvailableChannelsEnd (lc : String → String → Int) (s : ClientState) :
    ClientState :=
  { s with
      isListingChannels := false,
      availableChannels := s.availableChannels.mergeSort
        (fun a b => availableChannelsCmp lc a b ≤ 0) }

/-- The `onModeChange` callback (`irc-client.tsx` lines 220-242): build a
`mode` message; append it to the channel `sid ++ target` when the target
is a channel, to the server log otherwise. -/
def onModeChange (s : ClientState) (sid target nick modes : String)
    (params : List String) (uid : String) (ts : Nat) : ClientState :=
  let channelId := if jsStartsWith target "#" then sid ++ target else sid
  let content := "Mode change: " ++ target ++ " [" ++ modes ++
    (if params.length > 0 then " " ++ jsJoinSpace params else "")
    ++ "] by " ++ nick
  let message : Message :=
    { id := uid, timestamp := ts, nickname := some nick, content := content,
      type := .mode, channelId := channelId, target := target,
      modeParams := some params }
  if jsStartsWith target "#" then
    { s with channels := s.channels.map (fun ch =>
        if ch.id == channelId then
          { ch with messages := ch.messages ++ [message] }
        else ch) }
  else
    { s with serverLogMessages := s.serverLogMessages ++ [message] }

/-- The `onKick` callback (`irc-client.tsx` lines 243-276): in the channel
`sid ++ channel`, remove the kicked nick (casefolded comparison) and
append a `kick` message carrying the kicked nick, the kicker and the
reason; when the kicked nick is the session's own, emit the
active-view-invalidated signal (the source's destructive toast) and, if
that channel was the active view, redirect the active view to the server
log and open the server-log dialog. -/
def onKick (s : ClientState) (sid channel nick byNick : String)
    (reason : Option String) (uid : String) (ts : Nat) :
    ClientState × List Effect :=
  let channelId := sid ++ channel
  let kickMessage : Message :=
    { id := uid, timestamp := ts, nickname := some byNick,
      kicked := some nick, kickReason := reason,
      content := nick ++ " was kicked from " ++ channel ++ " by " ++ byNick
        ++ " (" ++ jsOrStr reason "No reason" ++ ")",
      type := .kick, channelId := channelId, target := channel }
  let s1 := { s with channels := s.channels.map (fun ch =>
      if ch.id == channelId then
        { ch with
            users := ch.users.filter
              (fun u => jsToLower u.nickname != jsToLower nick),
            messages := ch.messages ++ [kickMessage] }
      else ch) }
  match s.activeServer with
  | some srv =>
    if jsToLower nick == jsToLower srv.nickname then
      if s.activeChannelId == some channelId then
        ({ s1 with activeChannelId := some srv.id,
                   isServerLogDialogOpen := true },
         [.activeViewInvalidated channel])
      else (s1, [.activeViewInvalidated channel])
    else (s1, [])
  | none => (s1, [])

/-- Connection details submitted through the connect dialog (the
`Omit<ServerConnection, "id" | "isConnected" | "isConnecting">` parameter
of `handleConnect`). -/
structure ConnectDetails where
  host : String
  port : Nat
  nickname : String
  password : Option String := none
  realName : Option String := none
  email : Option String := none
deriving Repr, DecidableEq, Inhabited

/-- The `handleConnect` command (`irc-client.tsx` lines 318-335): derive
the server id `host:port`, install a fresh connecting `ServerConnection`,
clear channels and discovery list, reset the server log to a single
"Attempting to connect" message, make the server log the active view, open
the server-log dialog and forward the connect request.  The source guards
only against a missing service instance; there is no guard on the current
connection state. -/
def handleConnect (s : ClientState) (details : ConnectDetails)
    (uid : String) (ts : Nat) : ClientState × List Effect :=
  let sid := details.host ++ ":" ++ toString details.port
  ({ s with
      activeServer := some
        { id := sid, host := details.host, port := details.port,
          nickname := details.nickname, password := details.password,
          realName := details.realName, email := details.email,
          isConnected := false, isConnecting := true },
      channels := [],
      availableChannels := [],
      serverLogMessages :=
        [{ id := uid, timestamp := ts,
           content := "Attempting to connect to " ++ details.host ++ "...",
           type := .info, channelId := sid, target := sid }],
      activeChannelId := some sid,
      isServerLogDialogOpen := true },
   [.cmdConnect details.host details.port details.nickname])

/-- The `handleDisconnect` command (`irc-client.tsx` lines 337-341):
forward a disconnect request when a session exists; no local state
change. -/
def handleDisconnect (s : ClientState) : ClientState × List Effect :=
  match s.activeServer with
  | some _ => (s, [.cmdDisconnect])
  | none => (s, [])

/-- Sigil normalization performed inline by `executeJoinChannel`
(`irc-client.tsx` line 346).  Note the `startsWith` test runs on the
untrimmed input, exactly as in the source. -/
def properChannelName (channelNameToJoin : String) : String :=
  if jsStartsWith channelNameToJoin "#" then jsTrim channelNameToJoin
  else "#" ++ jsTrim channelNameToJoin

/-- The `executeJoinChannel` command (`irc-client.tsx` lines 343-377):
require a connected session and a non-blank name; normalize the name with
a leading `#` sigil and derive the channel id from the casefolded
normalized name.  If a channel with that id exists, toast `AlreadyJoined`
and only surface the existing id as the active view; otherwise install an
optimistic placeholder channel (self as the sole member, one "Joining"
info message), make it active, forward the join and clear the input
field. -/
def executeJoinChannel (s : ClientState) (channelNameToJoin : String)
    (uid : String) (ts : Nat) : ClientState × List Effect :=
  match s.activeServer with
  | none => (s, [])
  | some srv =>
    if !srv.isConnected || jsTrim channelNameToJoin == "" then (s, [])
    else
      let pcn := properChannelName channelNameToJoin
      let channelId := srv.id ++ jsToLower pcn
      match s.channels.find? (fun c => c.id == channelId) with
      | some _ =>
        ({ s with activeChannelId := some channelId },
         [.toastAlreadyJoined pcn])
      | none =>
        let newChannelPlaceholder : Channel :=
          { id := channelId, serverId := srv.id, name := pcn,
            users := [{ id := srv.nickname, nickname := srv.nickname }],
            messages := [{ id := uid, timestamp := ts, type := .info,
                           content := "Joining " ++ pcn ++ "...",
                           channelId := channelId,
                           target := pcn }],
            topic := some { text := "Joining " ++ pcn ++ "..." } }
        ({ s with
            channels := s.channels ++ [newChannelPlaceholder],
            activeChannelId := some channelId,
            joinChannelName := "" },
         [.cmdJoin pcn, .toastJoining pcn])

/-- The `handleLeaveChannel` command (`irc-client.tsx` lines 387-402):
when the channel exists, forward a part request (the service fills the
default reason), remove the channel locally and, if it was the active
view, redirect to the server log and open the server-log dialog. -/
def handleLeaveChannel (s : ClientState) (channelIdToLeave : String) :
    ClientState × List Effect :=
  match s.activeServer with
  | none => (s, [])
  | some srv =>
    match s.channels.find? (fun c => c.id == channelIdToLeave) with
    | none => (s, [])
    | some channel =>
      let s1 := { s with
          channels := s.channels.filter (fun c => c.id != channelIdToLeave) }
      let s2 :=
        if s.activeChannelId == some channelIdToLeave then
          { s1 with activeChannelId := some srv.id,
                    isServerLogDialogOpen := true }
        else s1
      (s2, [.cmdPart channel.name "Leaving channel",
            .toastChannelLeft channel.name])

/-- The `currentTarget` memo (`irc-client.tsx` lines 54-71) restricted to
the fields `handleSendMessage` reads: the target id, its display name and
whether it is the virtual server-log target. -/
def currentTargetOf (s : ClientState) : Option (String × String × Bool) :=
  match s.activeServer, s.activeChannelId with
  | some srv, some cid =>
    if cid == srv.id then some (srv.id, srv.host, true)
    else
      match s.channels.find? (fun c => c.id == cid) with
      | some channel => some (channel.id, channel.name, false)
      | none => none
  | _, _ => none

/-- The local send parsing performed by `IrcService.sendMessage`
(`irc-service.ts` lines 338-372): `/me ` becomes an action, `/notice
<target> <text>` a notice (dropped silently when malformed), `/query
<nick>` only requests an informational server message (modelled as the
`queryInfo` effect; the service's re-entrant `onServerMessage` callback is
a subsequent `serverMessage` event), anything else a plain privmsg. -/
def svcSendEffects (target text : String) : List Effect :=
  if jsStartsWith text "/me " then [.cmdAction target (jsDrop text 4)]
  else if jsStartsWith text "/notice " then
    let parts := jsSplitSpace text
    let noticeTarget := (parts.drop 1).headD ""
    let noticeMessage := jsJoinSpace (parts.drop 2)
    if noticeTarget != "" && noticeMessage != "" then
      [.cmdNotice noticeTarget noticeMessage]
    else []
  else if jsStartsWith text "/query " then
    let parts := jsSplitSpace text
    let queryNick := (parts.drop 1).headD ""
    if queryNick != "" then [.queryInfo queryNick] else []
  else [.cmdPrivmsg target text]

/-- The `handleSendMessage` command (`irc-client.tsx` lines 404-429):
require a current target, a connected session and a non-server,
non-blank-named target; forward the text to the service; then, only when
the text does not start with `/` (the source's "basic check to avoid
adding command text as self message") and the target id and own nickname
are truthy, append an optimistic self-authored message.  The `/me `
branches of the inner ternaries are kept as in the source even though the
`/`-guard makes their `action` arm unreachable. -/
def handleSendMessage (s : ClientState) (text : String) (uid : String)
    (ts : Nat) : ClientState × List Effect :=
  match s.activeServer with
  | none => (s, [])
  | some srv =>
    match currentTargetOf s with
    | none => (s, [])
    | some (tid, tname, isServer) =>
      if !srv.isConnected then (s, [])
      else if isServer || tname == "" then (s, [])
      else
        let effects := svcSendEffects tname text
        if tid != "" && srv.nickname != "" && !(jsStartsWith text "/") then
          let selfMessage : Message :=
            { id := uid, timestamp := ts, nickname := some srv.nickname,
              content := if jsStartsWith text "/me " then jsDrop text 4 else text,
              type := if jsStartsWith text "/me " then .action else .message,
              channelId := tid, target := tname, isSelf := true }
          ({ s with channels := s.channels.map (fun ch =>
              if ch.id == tid then
                { ch with messages := ch.messages ++ [selfMessage] }
              else ch) },
           effects)
        else (s, effects)

/-- The `handleSaveSettings` command (`irc-client.tsx` lines 431-447):
forward a nick change when the nickname differs and update the non-nick
settings (the nickname field itself is also updated when it differs, as
the source's ternary reduces to). -/
def handleSaveSettings (s : ClientState)
    (newNickname : String) (newRealName newEmail : Option String) :
    ClientState × List Effect :=
  match s.activeServer with
  | none => (s, [])
  | some srv =>
    let effects :=
      if newNickname != srv.nickname then [Effect.cmdNick newNickname]
      else []
    ({ s with activeServer := some (
        { srv with
            nickname := if newNickname == srv.nickname then srv.nickname
                        else newNickname,
            realName := newRealName, email := newEmail }) },
     effects)

/-- The `handleSelectChannel` command (`irc-client.tsx` lines 449-458):
make the target active; when it is a channel id, the session is connected
and the channel's member list is suspiciously small, forward a NAMES
refresh. -/
def handleSelectChannel (s : ClientState) (targetId : String) :
    ClientState × List Effect :=
  let s1 := { s with activeChannelId := some targetId }
  match s.activeServer with
  | some srv =>
    if jsIncludes targetId '#' && srv.isConnected then
      match s.channels.find? (fun c => c.id == targetId) with
      | some channel =>
        if channel.users.length ≤ 1 then
          (s1, [.cmdRaw ("NAMES " ++ channel.name)])
        else (s1, [])
      | none => (s1, [])
    else (s1, [])
  | none => (s1, [])

/-- Construction of the `Message` payload by the service's `message` event
handler (`irc-service.ts` lines 181-205): a channel target keys the
message by `serverId + casefold(target)`, a private message by `serverId +
casefold(sender nick)` with `isSelf = false`. -/
def svcMessageEvent (sid nick target text : String)
    (currentNick : Option String) (uid : String) (ts : Nat) : Message :=
  if jsStartsWith target "#" then
    { id := uid, timestamp := ts, nickname := some nick, content := text,
      type := .message, channelId := sid ++ jsToLower target,
      target := jsToLower target,
      isSelf := match currentNick with
        | some c => jsToLower nick == jsToLower c
        | none => false }
  else
    { id := uid, timestamp := ts, nickname := some nick, content := text,
      type := .message, channelId := sid ++ jsToLower nick,
      target := jsToLower nick, isSelf := false }

/-- Every protocol event and user command the synchronizer processes, with
the environment inputs (`uid` for `crypto.randomUUID()`, `ts` for
`Date.now()`) carried as payload. -/
inductive Ev where
  | userConnect (details : ConnectDetails) (uid : String) (ts : Nat)
  | userDisconnect
  | userJoinChannel (channelName : String) (uid : String) (ts : Nat)
  | userLeaveChannel (channelId : String)
  | userSendMessage (text : String) (uid : String) (ts : Nat)
  | userSaveSettings (newNickname : String)
      (newRealName newEmail : Option String)
  | userSelectChannel (targetId : String)
  | evConnect (sid : String) (uid : String) (ts : Nat)
  | evDisconnect (sid : String) (reason : Option String) (uid : String)
      (ts : Nat)
  | evError (sid etype emsg : String) (uid : String) (ts : Nat)
  | evServerMessage (sid : String) (msg : Message)
  | evChannelMessage (sid : String) (msg : Message)
  | evUserJoined (sid channelName nick : String) (user : User)
      (uid : String) (ts : Nat)
  | evUserParted (sid channelName nick : String) (reason : Option String)
      (uid : String) (ts : Nat)
  | evUserQuit (sid nick : String) (reason : Option String)
      (quitChannels : List String) (uid : String) (ts : Nat)
  | evNickChange (sid oldNick newNick : String)
      (nickChannels : List String) (uid : String) (ts : Nat)
  | evTopicChange (sid channelName topic : String) (nick : Option String)
      (ts : Nat)
  | evChannelUserList (sid channelName : String) (users : List User)
  | evAvailableStart (sid : String)
  | evAvailableItem (sid : String) (channel : AvailableChannelInfo)
  | evAvailableEnd (sid : String)
  | evModeChange (sid target nick modes : String) (params : List String)
      (uid : String) (ts : Nat)
  | evKick (sid channel nick byNick : String) (reason : Option String)
      (uid : String) (ts : Nat)
deriving Repr, Inhabited

/-- One reduction of the synchronizer: dispatch an event or command to its
handler.  `lc` is the host collation function used by discovery-list
sorting. -/
def step (lc : String → String → Int) (s : ClientState) (e : Ev) :
    ClientState × List Effect :=
  match e with
  | .userConnect details uid ts => handleConnect s details uid ts
  | .userDisconnect => handleDisconnect s
  | .userJoinChannel name uid ts => executeJoinChannel s name uid ts
  | .userLeaveChannel cid => handleLeaveChannel s cid
  | .userSendMessage text uid ts => handleSendMessage s text uid ts
  | .userSaveSettings n r m => handleSaveSettings s n r m
  | .userSelectChannel tid => handleSelectChannel s tid
  | .evConnect sid uid ts => onConnect s sid uid ts
  | .evDisconnect sid reason uid ts => onDisconnect s sid reason uid ts
  | .evError sid etype emsg uid ts => onError s sid etype emsg uid ts
  | .evServerMessage _ msg => (onServerMessage s msg, [])
  | .evChannelMessage sid msg => (onChannelMessage s sid msg, [])
  | .evUserJoined sid cn nick user uid ts =>
    (onUserJoinedChannel s sid cn nick user uid ts, [])
  | .evUserParted sid cn nick reason uid ts =>
    (onUserPartedChannel s sid cn nick reason uid ts, [])
  | .evUserQuit _ nick reason chans uid ts =>
    (onUserQuit s nick reason chans uid ts, [])
  | .evNickChange _ o n chans uid ts => (onNickChange s o n chans uid ts, [])
  | .evTopicChange sid cn topic nick ts => onTopicChange s sid cn topic nick ts
  | .evChannelUserList sid cn users => (onChannelUserList s sid cn users, [])
  | .evAvailableStart _ => (onAvailableChannelsStart s, [])
  | .evAvailableItem _ channel => (onAvailableChannelItem s channel, [])
  | .evAvailableEnd _ => (onAvailableChannelsEnd lc s, [])
  | .evModeChange sid target nick modes params uid ts =>
    (onModeChange s sid target nick modes params uid ts, [])
  | .evKick sid channel nick byNick reason uid ts =>
    onKick s sid channel nick byNick reason uid ts

/-- Connection state as the specification's three-valued view of the
source's `isConnected`/`isConnecting` flags (`Disconnected` when no
session exists or both flags are down). -/
inductive ConnState where
  | Disconnected | Connecting | Connected
deriving Repr, DecidableEq, Inhabited

/-- Derive the specification's `connectionState` from the state held by
the source. -/
def connState (s : ClientState) : ConnState :=
  match s.activeServer with
  | none => .Disconnected
  | some srv =>
    if srv.isConnected then .Connected
    else if srv.isConnecting then .Connecting
    else .Disconnected

/-- Model of the host collation function `String.prototype.localeCompare`
as the specification reads it: case-insensitive ascending ASCII
comparison.  The actual collation is host- and locale-dependent and lies
outside the repository; every theorem about discovery sorting is stated
for this model. -/
def lcModel (a b : String) : Int :=
  if lexLt (jsToLower a).data (jsToLower b).data then -1
  else if lexLt (jsToLower b).data (jsToLower a).data then 1
  else 0

/-- Discovery ordering as worded by the specification (refinement-side
definition, written from the spec, to be compared with the source-side
comparator): entries with a defined `userCount` precede entries without
one; among defined counts, descending by count with ties broken by
case-insensitive ascending name; among undefined counts, case-insensitive
ascending name. -/
def specDiscoveryLE (a b : AvailableChannelInfo) : Bool :=
  match a.userCount, b.userCount with
  | some ca, some cb =>
    decide (cb < ca) || (decide (cb = ca) && ciLe a.name b.name)
  | some _, none => true
  | none, some _ => false
  | none, none => ciLe a.name b.name

/-- Relation between a channel list before and after one reduction: every
surviving channel's message sequence is the prior sequence with zero or
more messages appended (channels are matched by id). -/
def MessagesExtend (before after : List Channel) : Prop :=
  ∀ ch ∈ before, ∀ ch2 ∈ after, ch2.id = ch.id →
    ∃ tail, ch2.messages = ch.messages ++ tail

/-- Invariant: every message stored in a channel carries that channel's
id. -/
def ChannelMsgInv (s : ClientState) : Prop :=
  ∀ ch ∈ s.channels, ∀ m ∈ ch.messages, m.channelId = ch.id

/-- Invariant: every message in the server log carries the session's
server id (trivially true with no active session; the source clears or
rebuilds the log whenever the session identity changes). -/
def ServerLogInv (s : ClientState) : Prop :=
  match s.activeServer with
  | some srv => ∀ m ∈ s.serverLogMessages, m.channelId = srv.id
  | none => True

/-- An event's server id matches the active session's id.  In the running
system this always holds: the service stamps every callback with the
`serverId` captured at `connect`, which is the id `handleConnect` installed
in `activeServer`. -/
def sidOk (s : ClientState) (sid : String) : Prop :=
  match s.activeServer with
  | some srv => sid = srv.id
  | none => True

/-- Session coherence of an event, for the handlers that stamp the event's
server id into the server log or compare it against the session:
`onConnect`, `onDisconnect`, `onError`, `onModeChange`, and
`onServerMessage` (whose payload the service always builds with
`channelId = serverId`, `irc-service.ts` lines 127-135, 153-160, 168-176
and 358-365).  All other events need no condition. -/
def EvCoherent (s : ClientState) (e : Ev) : Prop :=
  match e with
  | .evConnect sid _ _ => sidOk s sid
  | .evDisconnect sid _ _ _ => sidOk s sid
  | .evError sid _ _ _ _ => sidOk s sid
  | .evModeChange sid _ _ _ _ _ _ => sidOk s sid
  | .evServerMessage sid msg => sidOk s sid ∧ msg.channelId = sid
  | _ => True

/-- Fixture: a connected session on `chat.example:6667` as `bob`. -/
def fixServer : ServerConnection :=
  { id := "chat.example:6667", host := "chat.example", port := 6667,
    nickname := "bob", isConnected := true }

/-- Fixture: the channel `#test` with members bob and alice and an empty
history. -/
def fixChannel : Channel :=
  { id := "chat.example:6667#test", serverId := "chat.example:6667",
    name := "#test",
    users := [{ id := "bob", nickname := "bob" },
              { id := "alice", nickname := "alice" }],
    messages := [] }

/-- Fixture: a connected state viewing `#test`, with one discovery entry
present. -/
def fixState : ClientState :=
  { activeServer := some fixServer,
    channels := [fixChannel],
    availableChannels :=
      [{ id := "chat.example:6667#test", serverId := "chat.example:6667",
         name := "#test", userCount := some 2 }],
    serverLogMessages := [],
    activeChannelId := some "chat.example:6667#test" }

/-- Fixture: a state in the middle of a connection attempt, with two
server-log messages. -/
def fixConnectingState : ClientState :=
  { activeServer := some
      { id := "chat.example:6667", host := "chat.example", port := 6667,
        nickname := "bob", isConnected := false, isConnecting := true },
    serverLogMessages :=
      [{ id := "m1", timestamp := 1, target := "chat.example:6667",
         content := "Attempting to connect to chat.example...",
         type := .info, channelId := "chat.example:6667" },
       { id := "m2", timestamp := 2, target := "chat.example:6667",
         content := "Connection is taking longer than usual",
         type := .info, channelId := "chat.example:6667" }],
    activeChannelId := some "chat.example:6667" }

/-- Fixture: connection details for a second connect attempt. -/
def fixDetails : ConnectDetails :=
  { host := "irc.other", port := 6667, nickname := "bob" }

/-- Fixture: the discovery list of the specification's sorting example
(`#a` with 5 users, `#b` with 10, `#c` without a count). -/
def fixDiscoveryState : ClientState :=
  { fixState with availableChannels :=
      [{ id := "chat.example:6667#a", serverId := "chat.example:6667",
         name := "#a", userCount := some 5 },
       { id := "chat.example:6667#b", serverId := "chat.example:6667",
         name := "#b", userCount := some 10 },
       { id := "chat.example:6667#c", serverId := "chat.example:6667",
         name := "#c", userCount := none }] }

set_option linter.unreachableTactic false
set_option linter.unusedTactic false
set_option linter.unusedVariables false


theorem map_eq_self_of {α : Type} {l : List α} {f : α → α}
    (h : ∀ a ∈ l, f a = a) : l.map f = l := by
  induction l with
  | nil => rfl
  | cons x xs ih =>
    have hx := h x (by simp)
    have hxs : ∀ a ∈ xs, f a = a := fun a ha => h a (by simp [ha])
    simp [hx, ih hxs]

theorem join_already (s : ClientState) (srv : ServerConnection)
    (n uid : String) (ts : Nat)
    (hsrv : s.activeServer = some srv) (hconn : srv.isConnected = true)
    (hne : jsTrim n ≠ "")
    (hex : ∃ ch ∈ s.channels,
      ch.id = srv.id ++ jsToLower (properChannelName n)) :
    executeJoinChannel s n uid ts =
      ({ s with
          activeChannelId :=
            some (srv.id ++ jsToLower (properChannelName n)) },
       [.toastAlreadyJoined (properChannelName n)]) := by
  have hcond : (!srv.isConnected || jsTrim n == "") = false := by
    simp [hconn, hne]
  have hfind : (s.channels.find? (fun c =>
      c.id == srv.id ++ jsToLower (properChannelName n))).isSome := by
    refine List.find?_isSome.mpr ?_
    obtain ⟨ch, hch, hid⟩ := hex
    exact ⟨ch, hch, by simp [hid]⟩
  simp only [executeJoinChannel, hsrv, hcond, Bool.false_eq_true, if_false]
  cases hf : s.channels.find? (fun c =>
      c.id == srv.id ++ jsToLower (properChannelName n)) with
  | none => rw [hf] at hfind; simp at hfind
  | some ch => simp [hf]

theorem join_ensures_channel (s : ClientState) (srv : ServerConnection)
    (n uid : String) (ts : Nat)
    (hsrv : s.activeServer = some srv) (hconn : srv.isConnected = true)
    (hne : jsTrim n ≠ "") :
    (∃ ch ∈ (executeJoinChannel s n uid ts).1.channels,
      ch.id = srv.id ++ jsToLower (properChannelName n)) ∧
    (executeJoinChannel s n uid ts).1.activeServer = s.activeServer := by
  have hcond : (!srv.isConnected || jsTrim n == "") = false := by
    simp [hconn, hne]
  simp only [executeJoinChannel, hsrv, hcond, Bool.false_eq_true, if_false]
  cases hf : s.channels.find? (fun c =>
      c.id == srv.id ++ jsToLower (properChannelName n)) with
  | none =>
    simp only [hf, List.mem_append, List.mem_singleton]
    refine ⟨⟨_, Or.inr rfl, rfl⟩, by simp [hsrv]⟩
  | some ch =>
    have hp := List.find?_some hf
    have hmem := List.mem_of_find?_eq_some hf
    simp only [hf]
    exact ⟨⟨ch, by simpa using hmem, by simpa using hp⟩, by simp [hsrv]⟩


theorem lexLt_irrefl : ∀ l : List Char, lexLt l l = false
  | [] => rfl
  | a :: as => by simp [lexLt, lt_irrefl, lexLt_irrefl as]

theorem lexLt_asymm : ∀ {l1 l2 : List Char},
    lexLt l1 l2 = true → lexLt l2 l1 = false
  | [], [], h => by simp [lexLt] at h
  | [], _ :: _, _ => rfl
  | _ :: _, [], h => by simp [lexLt] at h
  | a :: as, b :: bs, h => by
    simp only [lexLt] at h ⊢
    by_cases hab : a < b
    · simp [hab, asymm hab]
    · by_cases hba : b < a
      · simp [hab, hba] at h
      · simp only [if_neg hab, if_neg hba] at h ⊢
        exact lexLt_asymm h

theorem lexLt_trans : ∀ {l1 l2 l3 : List Char},
    lexLt l1 l2 = true → lexLt l2 l3 = true → lexLt l1 l3 = true
  | [], [], _, h1, _ => by simp [lexLt] at h1
  | [], _ :: _, [], _, h2 => by simp [lexLt] at h2
  | [], _ :: _, _ :: _, _, _ => rfl
  | _ :: _, [], _, h1, _ => by simp [lexLt] at h1
  | _ :: _, _ :: _, [], _, h2 => by simp [lexLt] at h2
  | a :: as, b :: bs, c :: cs, h1, h2 => by
    simp only [lexLt] at h1 h2 ⊢
    by_cases hab : a < b
    · by_cases hbc : b < c
      · simp [lt_trans hab hbc]
      · by_cases hcb : c < b
        · simp [hbc, hcb] at h2
        · have hbceq : b = c :=
            le_antisymm (le_of_not_lt hcb) (le_of_not_lt hbc)
          subst hbceq
          simp [hab]
    · by_cases hba : b < a
      · simp [hab, hba] at h1
      · have habeq : a = b :=
          le_antisymm (le_of_not_lt hba) (le_of_not_lt hab)
        subst habeq
        simp only [if_neg hab, if_neg hba] at h1
        by_cases hac : a < c
        · simp [hac]
        · by_cases hca : c < a
          · simp [hac, hca] at h2
          · simp only [if_neg hac, if_neg hca] at h2 ⊢
            exact lexLt_trans h1 h2

theorem lexLt_eq_of_not : ∀ {l1 l2 : List Char},
    lexLt l1 l2 = false → lexLt l2 l1 = false → l1 = l2
  | [], [], _, _ => rfl
  | [], _ :: _, h1, _ => by simp [lexLt] at h1
  | _ :: _, [], _, h2 => by simp [lexLt] at h2
  | a :: as, b :: bs, h1, h2 => by
    simp only [lexLt] at h1 h2
    by_cases hab : a < b
    · simp [hab] at h1
    · by_cases hba : b < a
      · simp [hba] at h2
      · have habeq : a = b :=
          le_antisymm (le_of_not_lt hba) (le_of_not_lt hab)
        subst habeq
        simp only [if_neg hab, if_neg hba] at h1 h2
        rw [lexLt_eq_of_not h1 h2]


theorem ciLe_total (a b : String) : ciLe a b || ciLe b a := by
  unfold ciLe
  by_cases h : lexLt (jsToLower b).data (jsToLower a).data
  · have := lexLt_asymm h
    simp [this]
  · simp [h]

theorem ciLe_trans {a b c : String} (h1 : ciLe a b = true)
    (h2 : ciLe b c = true) : ciLe a c = true := by
  unfold ciLe at h1 h2 ⊢
  simp only [Bool.not_eq_true'] at h1 h2 ⊢
  cases hab : lexLt (jsToLower a).data (jsToLower b).data with
  | true =>
    cases hca : lexLt (jsToLower c).data (jsToLower a).data with
    | true =>
      have hcb := lexLt_trans hca hab
      rw [hcb] at h2
      exact absurd h2 (by simp)
    | false => rfl
  | false =>
    have heq := lexLt_eq_of_not hab h1
    rw [heq]
    exact h2

theorem cmp_agrees_with_spec (a b : AvailableChannelInfo) :
    (decide (availableChannelsCmp lcModel a b ≤ 0)) = specDiscoveryLE a b := by
  cases ha : a.userCount with
  | none =>
    cases hb : b.userCount with
    | none =>
      simp only [availableChannelsCmp, specDiscoveryLE, lcModel, ciLe, ha, hb]
      by_cases h1 : lexLt (jsToLower a.name).data (jsToLower b.name).data = true
      · simp [h1, lexLt_asymm h1]
      · by_cases h2 : lexLt (jsToLower b.name).data (jsToLower a.name).data = true
        · simp [h1, h2]
        · simp [h1, h2]
    | some cb =>
      simp only [availableChannelsCmp, specDiscoveryLE, ha, hb]
      simp
  | some ca =>
    cases hb : b.userCount with
    | none =>
      simp only [availableChannelsCmp, specDiscoveryLE, ha, hb]
      simp
    | some cb =>
      simp only [availableChannelsCmp, specDiscoveryLE, lcModel, ciLe, ha, hb]
      by_cases hne : cb = ca
      · subst hne
        rw [if_neg (by simp)]
        by_cases h1 : lexLt (jsToLower a.name).data (jsToLower b.name).data = true
        · simp [h1, lexLt_asymm h1]
        · by_cases h2 : lexLt (jsToLower b.name).data (jsToLower a.name).data = true
          · simp [h1, h2]
          · simp [h1, h2]
      · rw [if_pos hne]
        by_cases hlt : cb < ca
        · have hle : ((cb : Int) - ca ≤ 0) := by omega
          simp [hle, hlt]
        · have hgt : ¬((cb : Int) - ca ≤ 0) := by omega
          simp [hgt, hlt, hne]


theorem specDiscoveryLE_total (a b : AvailableChannelInfo) :
    specDiscoveryLE a b || specDiscoveryLE b a := by
  unfold specDiscoveryLE
  cases ha : a.userCount with
  | none =>
    cases hb : b.userCount with
    | none => exact ciLe_total a.name b.name
    | some cb => simp
  | some ca =>
    cases hb : b.userCount with
    | none => simp
    | some cb =>
      rcases lt_trichotomy ca cb with h | h | h
      · simp [h]
      · subst h
        simpa using ciLe_total a.name b.name
      · simp [h]

theorem specDiscoveryLE_trans (a b c : AvailableChannelInfo)
    (h1 : specDiscoveryLE a b) (h2 : specDiscoveryLE b c) :
    specDiscoveryLE a c := by
  unfold specDiscoveryLE at h1 h2 ⊢
  cases ha : a.userCount with
  | none =>
    cases hb : b.userCount with
    | none =>
      cases hc : c.userCount with
      | none =>
        rw [ha, hb] at h1
        rw [hb, hc] at h2
        exact ciLe_trans h1 h2
      | some cc =>
        rw [hb, hc] at h2
        simp at h2
    | some cb =>
      rw [ha, hb] at h1
      simp at h1
  | some ca =>
    cases hc : c.userCount with
    | none => rfl
    | some cc =>
      cases hb : b.userCount with
      | none =>
        rw [hb, hc] at h2
        simp at h2
      | some cb =>
        rw [ha, hb] at h1
        rw [hb, hc] at h2
        simp only [Bool.or_eq_true, Bool.and_eq_true, decide_eq_true_eq] at h1 h2 ⊢
        rcases h1 with h1 | ⟨h1e, h1c⟩
        · rcases h2 with h2 | ⟨h2e, h2c⟩
          · exact Or.inl (lt_trans h2 h1)
          · exact Or.inl (h2e ▸ h1)
        · rcases h2 with h2 | ⟨h2e, h2c⟩
          · exact Or.inl (h1e ▸ h2)
          · exact Or.inr ⟨h2e.trans h1e, ciLe_trans h1c h2c⟩


theorem messagesExtend_of_sub {l l2 : List Channel}
    (hnd : (l.map Channel.id).Nodup)
    (hsub : ∀ ch2 ∈ l2, ch2 ∈ l) :
    MessagesExtend l l2 := by
  intro ch hch ch2 hch2 hideq
  have heq : ch2 = ch :=
    List.inj_on_of_nodup_map hnd (hsub ch2 hch2) hch hideq
  exact ⟨[], by rw [heq]; simp⟩

theorem messagesExtend_map {l : List Channel} {f : Channel → Channel}
    (hnd : (l.map Channel.id).Nodup)
    (hid : ∀ c, (f c).id = c.id)
    (hm : ∀ c, ∃ t, (f c).messages = c.messages ++ t) :
    MessagesExtend l (l.map f) := by
  intro ch hch ch2 hch2 hideq
  obtain ⟨c, hc, hfc⟩ := List.mem_map.mp hch2
  have hcid : c.id = ch.id := by rw [← hid c, hfc]; exact hideq
  have heq : c = ch := List.inj_on_of_nodup_map hnd hc hch hcid
  subst heq
  obtain ⟨t, ht⟩ := hm c
  exact ⟨t, by rw [← hfc]; exact ht⟩

theorem messagesExtend_append_new {l l2 : List Channel} {nc : Channel}
    (h : MessagesExtend l l2)
    (hnew : ∀ ch ∈ l, ch.id ≠ nc.id) :
    MessagesExtend l (l2 ++ [nc]) := by
  intro ch hch ch2 hch2 hideq
  rcases List.mem_append.mp hch2 with hm | hm
  · exact h ch hch ch2 hm hideq
  · have heq : ch2 = nc := by simpa using hm
    subst heq
    exact absurd hideq.symm (hnew ch hch)

theorem messagesExtend_nil {l : List Channel} : MessagesExtend l [] := by
  intro ch hch ch2 hch2
  simp at hch2


theorem channelMsgInv_map {l : List Channel} {f : Channel → Channel}
    (hf : ∀ c, (∀ m ∈ c.messages, m.channelId = c.id) →
      ∀ m ∈ (f c).messages, m.channelId = (f c).id)
    (h : ∀ ch ∈ l, ∀ m ∈ ch.messages, m.channelId = ch.id) :
    ∀ ch ∈ l.map f, ∀ m ∈ ch.messages, m.channelId = ch.id := by
  intro ch hch m hm
  obtain ⟨c, hc, rfl⟩ := List.mem_map.mp hch
  exact hf c (h c hc) m hm

theorem onChannelMessage_inv (s : ClientState) (sid : String)
    (msg : Message) (hch : ChannelMsgInv s) :
    ChannelMsgInv (onChannelMessage s sid msg) := by
  have hkey : ∀ c : Channel, (∀ m ∈ c.messages, m.channelId = c.id) →
      ∀ m ∈ ((fun ch => if ch.id == msg.channelId then
          { ch with messages := ch.messages ++ [msg] }
        else ch) c).messages,
        m.channelId = ((fun ch => if ch.id == msg.channelId then
          { ch with messages := ch.messages ++ [msg] }
        else ch) c).id := by
    intro c hcm m hm
    dsimp only at hm ⊢
    by_cases hcond : (c.id == msg.channelId) = true
    · rw [if_pos hcond] at hm ⊢
      rcases List.mem_append.mp hm with h1 | h1
      · exact hcm m h1
      · have hmm : m = msg := by simpa using h1
        subst hmm
        exact ((beq_iff_eq).mp hcond).symm
    · rw [if_neg hcond] at hm ⊢
      exact hcm m hm
  have hmap : ∀ ch ∈ (s.channels.map fun ch =>
      if ch.id == msg.channelId then
        { ch with messages := ch.messages ++ [msg] }
      else ch), ∀ m ∈ ch.messages, m.channelId = ch.id :=
    channelMsgInv_map hkey hch
  unfold onChannelMessage
  cases hs : s.activeServer with
  | none => exact hmap
  | some srv =>
    cases hn : msg.nickname with
    | none => exact hmap
    | some nick =>
      dsimp only
      by_cases hcond : (!(s.channels.any fun ch => ch.id == msg.channelId)
          && !(jsStartsWith msg.target "#") && (nick != "")) = true
      · rw [if_pos hcond]
        intro ch hc m hm
        rcases List.mem_append.mp hc with h1 | h1
        · exact hmap ch h1 m hm
        · have hche : ch =
              { id := msg.channelId, serverId := sid,
                name := if msg.isSelf then msg.target else nick,
                users := [{ id := srv.nickname,
                            nickname := srv.nickname },
                          { id := if msg.isSelf then msg.target else nick,
                            nickname := if msg.isSelf then msg.target
                                        else nick }],
                messages := [msg],
                topic := some { text := "Private messages with " ++
                                  (if msg.isSelf then msg.target
                                   else nick) } } := by
            simpa using h1
          subst hche
          have hmm : m = msg := by simpa using hm
          subst hmm
          rfl
      · rw [if_neg hcond]
        exact hmap


/-- Helper for the append-only property: one `onChannelMessage` reduction
only appends to existing channels (and possibly creates a fresh
private-message channel whose id no existing channel carries). -/
theorem onChannelMessage_extend (s : ClientState) (sid : String)
    (msg : Message) (hnd : (s.channels.map Channel.id).Nodup) :
    MessagesExtend s.channels ((onChannelMessage s sid msg).channels) := by
  have hmap : MessagesExtend s.channels (s.channels.map fun ch =>
      if ch.id == msg.channelId then
        { ch with messages := ch.messages ++ [msg] }
      else ch) := by
    refine messagesExtend_map hnd (fun c => by split <;> rfl) ?_
    intro c
    split
    · exact ⟨[msg], rfl⟩
    · exact ⟨[], by simp⟩
  unfold onChannelMessage
  cases hs : s.activeServer with
  | none => exact hmap
  | some srv =>
    cases hn : msg.nickname with
    | none => exact hmap
    | some nick =>
      dsimp only
      by_cases hcond : (!(s.channels.any fun ch => ch.id == msg.channelId)
          && !(jsStartsWith msg.target "#") && (nick != "")) = true
      · rw [if_pos hcond]
        refine messagesExtend_append_new hmap ?_
        intro c hc heq
        have hany : (s.channels.any fun ch =>
            ch.id == msg.channelId) = false := by
          have h1 := (Bool.and_eq_true _ _).mp
            ((Bool.and_eq_true _ _).mp hcond).1
          simpa using h1.1
        have := List.any_eq_false.mp hany c hc
        simp at this
        exact this heq
      · rw [if_neg hcond]
        exact hmap

/-- C1: for every protocol event or user command processed by the
synchronizer, and for every channel that exists both before and after the
reduction (matched by id, under the session invariant that channel ids are
unique), the channel's message sequence afterwards is the prior sequence
with zero or more messages appended at the end; in particular no earlier
message is removed, modified or reordered and the length is monotonically
non-decreasing. -/
theorem step_messages_append_only (lc : String → String → Int)
    (s : ClientState) (e : Ev)
    (hnd : (s.channels.map Channel.id).Nodup) :
    MessagesExtend s.channels ((step lc s e).1.channels) := by
  cases e with
  | userConnect details uid ts =>
    intro ch hch ch2 hch2
    simp [step, handleConnect] at hch2
  | userDisconnect =>
    apply messagesExtend_of_sub hnd
    intro ch2 h2
    cases hs : s.activeServer <;>
      simpa [step, handleDisconnect, hs] using h2
  | userJoinChannel name uid ts =>
    cases hs : s.activeServer with
    | none =>
      apply messagesExtend_of_sub hnd
      intro ch2 h2
      simpa [step, executeJoinChannel, hs] using h2
    | some srv =>
      by_cases hg : (!srv.isConnected || jsTrim name == "") = true
      · apply messagesExtend_of_sub hnd
        intro ch2 h2
        simpa [step, executeJoinChannel, hs, hg] using h2
      · cases hf : s.channels.find? (fun c =>
            c.id == srv.id ++ jsToLower (properChannelName name)) with
        | some ch =>
          have hres : (step lc s (.userJoinChannel name uid ts)).1.channels
              = s.channels := by
            simp [step, executeJoinChannel, hs, hg, hf]
          rw [hres]
          exact messagesExtend_of_sub hnd (fun _ h => h)
        | none =>
          have hres : (step lc s (.userJoinChannel name uid ts)).1.channels
              = s.channels ++
                [{ id := srv.id ++ jsToLower (properChannelName name),
                   serverId := srv.id, name := properChannelName name,
                   users := [{ id := srv.nickname,
                               nickname := srv.nickname }],
                   messages := [{ id := uid, timestamp := ts,
                                  type := .info,
                                  content := "Joining " ++
                                    properChannelName name ++ "...",
                                  channelId := srv.id ++
                                    jsToLower (properChannelName name),
                                  target := properChannelName name }],
                   topic := some { text := "Joining " ++
                                     properChannelName name ++ "..." } }]
              := by
            simp [step, executeJoinChannel, hs, hg, hf]
          rw [hres]
          refine messagesExtend_append_new
            (messagesExtend_of_sub hnd (fun _ h => h)) ?_
          intro c hc heq
          have := List.find?_eq_none.mp hf c hc
          simp at this
          exact this heq
  | userLeaveChannel cid =>
    apply messagesExtend_of_sub hnd
    intro ch2 h2
    cases hs : s.activeServer with
    | none => simpa [step, handleLeaveChannel, hs] using h2
    | some srv =>
      cases hf : s.channels.find? (fun c => c.id == cid) with
      | none => simpa [step, handleLeaveChannel, hs, hf] using h2
      | some ch =>
        by_cases hac : s.activeChannelId == some cid
        · simp only [step, handleLeaveChannel, hs, hf, hac] at h2
          simp at h2
          exact h2.1
        · simp only [step, handleLeaveChannel, hs, hf] at h2
          rw [if_neg (by simpa using hac)] at h2
          simp at h2
          exact h2.1
  | userSendMessage text uid ts =>
    cases hs : s.activeServer with
    | none =>
      apply messagesExtend_of_sub hnd
      intro ch2 h2
      simpa [step, handleSendMessage, hs] using h2
    | some srv =>
      cases ht : currentTargetOf s with
      | none =>
        apply messagesExtend_of_sub hnd
        intro ch2 h2
        simpa [step, handleSendMessage, hs, ht] using h2
      | some tgt =>
        obtain ⟨tid, tname, isServer⟩ := tgt
        by_cases h1 : srv.isConnected
        · by_cases h2c : (isServer || tname == "") = true
          · apply messagesExtend_of_sub hnd
            intro ch2 h2
            simpa [step, handleSendMessage, hs, ht, h1, h2c] using h2
          · by_cases h3 : (tid != "" && srv.nickname != ""
                && !(jsStartsWith text "/")) = true
            · have hres : (step lc s (.userSendMessage text uid ts)).1.channels
                  = s.channels.map (fun ch =>
                    if ch.id == tid then
                      { ch with messages := ch.messages ++
                        [{ id := uid, timestamp := ts,
                           nickname := some srv.nickname,
                           content := if jsStartsWith text "/me " then
                               jsDrop text 4 else text,
                           type := if jsStartsWith text "/me " then
                               .action else .message,
                           channelId := tid, target := tname,
                           isSelf := true }] }
                    else ch) := by
                simp [step, handleSendMessage, hs, ht, h1, h2c, h3]
              rw [hres]
              refine messagesExtend_map hnd
                (fun c => by first | (dsimp only; split <;> rfl) | (split <;> rfl)) ?_
              intro c
              dsimp only
              split
              · exact ⟨[_], rfl⟩
              · exact ⟨[], by simp⟩
            · apply messagesExtend_of_sub hnd
              intro ch2 h2
              simpa [step, handleSendMessage, hs, ht, h1, h2c, h3] using h2
        · apply messagesExtend_of_sub hnd
          intro ch2 h2
          simpa [step, handleSendMessage, hs, ht, h1] using h2
  | userSaveSettings n r m =>
    apply messagesExtend_of_sub hnd
    intro ch2 h2
    cases hs : s.activeServer <;>
      simpa [step, handleSaveSettings, hs] using h2
  | userSelectChannel tid =>
    apply messagesExtend_of_sub hnd
    intro ch2 h2
    cases hs : s.activeServer with
    | none => simpa [step, handleSelectChannel, hs] using h2
    | some srv =>
      by_cases hc : (jsIncludes tid '#' && srv.isConnected) = true
      · cases hf : s.channels.find? (fun c => c.id == tid) with
        | none => simpa [step, handleSelectChannel, hs, hc, hf] using h2
        | some ch =>
          by_cases hu : ch.users.length ≤ 1
          · simpa [step, handleSelectChannel, hs, hc, hf, hu] using h2
          · simpa [step, handleSelectChannel, hs, hc, hf, hu] using h2
      · simpa [step, handleSelectChannel, hs, hc] using h2
  | evConnect sid uid ts =>
    apply messagesExtend_of_sub hnd
    intro ch2 h2
    simpa [step, onConnect] using h2
  | evDisconnect sid reason uid ts =>
    intro ch hch ch2 hch2
    simp [step, onDisconnect] at hch2
  | evError sid etype emsg uid ts =>
    apply messagesExtend_of_sub hnd
    intro ch2 h2
    by_cases hm : etype ∈ connectionErrorTypes
    · simpa [step, onError, hm] using h2
    · simpa [step, onError, hm] using h2
  | evServerMessage sid msg =>
    apply messagesExtend_of_sub hnd
    intro ch2 h2
    simpa [step, onServerMessage] using h2
  | evChannelMessage sid msg =>
    exact onChannelMessage_extend s sid msg hnd
  | evUserJoined sid cn nick user uid ts =>
    refine messagesExtend_map hnd
      (fun c => by first | (dsimp only; split <;> rfl) | (split <;> rfl)) ?_
    intro c
    first | dsimp only | skip
    split
    · exact ⟨[_], rfl⟩
    · exact ⟨[], by simp⟩
  | evUserParted sid cn nick reason uid ts =>
    refine messagesExtend_map hnd
      (fun c => by first | (dsimp only; split <;> rfl) | (split <;> rfl)) ?_
    intro c
    first | dsimp only | skip
    split
    · exact ⟨[_], rfl⟩
    · exact ⟨[], by simp⟩
  | evUserQuit sid nick reason chans uid ts =>
    refine messagesExtend_map hnd
      (fun c => by first | (dsimp only; split <;> rfl) | (split <;> rfl)) ?_
    intro c
    first | dsimp only | skip
    split
    · exact ⟨[_], rfl⟩
    · exact ⟨[], by simp⟩
  | evNickChange sid o n chans uid ts =>
    have hmap : MessagesExtend s.channels (s.channels.map fun ch =>
        if (ch.users.any fun u =>
            jsToLower u.nickname == jsToLower o)
          || chans.contains (jsToLower ch.name) then
          { ch with
              users := ch.users.map (fun u =>
                if jsToLower u.nickname == jsToLower o then
                  { u with nickname := n, id := n }
                else u),
              messages := ch.messages ++
                [{ id := uid, timestamp := ts, oldNickname := some o,
                   nickname := some n, type := .nick, content := "",
                   channelId := ch.id, target := ch.name }] }
        else ch) := by
      refine messagesExtend_map hnd
        (fun c => by first | (dsimp only; split <;> rfl) | (split <;> rfl)) ?_
      intro c
      first | dsimp only | skip
      split
      · exact ⟨[_], rfl⟩
      · exact ⟨[], by simp⟩
    show MessagesExtend s.channels
      ((onNickChange s o n chans uid ts).channels)
    unfold onNickChange
    cases hs : s.activeServer with
    | none => exact hmap
    | some srv =>
      dsimp only
      by_cases hl : (jsToLower srv.nickname == jsToLower o) = true
      · rw [if_pos hl]
        exact hmap
      · rw [if_neg hl]
        exact hmap
  | evTopicChange sid cn topic nick ts =>
    refine messagesExtend_map hnd
      (fun c => by first | (dsimp only; split <;> rfl) | (split <;> rfl)) ?_
    intro c
    first | dsimp only | skip
    split
    · exact ⟨[], by simp⟩
    · exact ⟨[], by simp⟩
  | evChannelUserList sid cn users =>
    refine messagesExtend_map hnd
      (fun c => by first | (dsimp only; split <;> rfl) | (split <;> rfl)) ?_
    intro c
    first | dsimp only | skip
    split
    · exact ⟨[], by simp⟩
    · exact ⟨[], by simp⟩
  | evAvailableStart sid =>
    apply messagesExtend_of_sub hnd
    intro ch2 h2
    simpa [step, onAvailableChannelsStart] using h2
  | evAvailableItem sid channel =>
    apply messagesExtend_of_sub hnd
    intro ch2 h2
    simpa [step, onAvailableChannelItem] using h2
  | evAvailableEnd sid =>
    apply messagesExtend_of_sub hnd
    intro ch2 h2
    simpa [step, onAvailableChannelsEnd] using h2
  | evModeChange sid target nick modes params uid ts =>
    by_cases ht : jsStartsWith target "#" = true
    · have hres : (step lc s (.evModeChange sid target nick modes params
          uid ts)).1.channels
          = s.channels.map (fun ch =>
            if ch.id == sid ++ target then
              { ch with messages := ch.messages ++
                [{ id := uid, timestamp := ts, nickname := some nick,
                   content := "Mode change: " ++ target ++ " [" ++ modes
                     ++ (if params.length > 0 then
                           " " ++ jsJoinSpace params
                         else "")
                     ++ "] by " ++ nick,
                   type := .mode, channelId := sid ++ target,
                   target := target, modeParams := some params }] }
            else ch) := by
        simp [step, onModeChange, ht]
      rw [hres]
      refine messagesExtend_map hnd
        (fun c => by first | (dsimp only; split <;> rfl) | (split <;> rfl)) ?_
      intro c
      first | dsimp only | skip
      split
      · exact ⟨[_], rfl⟩
      · exact ⟨[], by simp⟩
    · apply messagesExtend_of_sub hnd
      intro ch2 h2
      simpa [step, onModeChange, ht] using h2
  | evKick sid channel nick byNick reason uid ts =>
    have hmap : MessagesExtend s.channels (s.channels.map fun ch =>
        if ch.id == sid ++ channel then
          { ch with
              users := ch.users.filter (fun u =>
                jsToLower u.nickname != jsToLower nick),
              messages := ch.messages ++
                [{ id := uid, timestamp := ts, nickname := some byNick,
                   kicked := some nick, kickReason := reason,
                   content := nick ++ " was kicked from " ++ channel ++
                     " by " ++ byNick ++ " (" ++
                     jsOrStr reason "No reason" ++ ")",
                   type := .kick, channelId := sid ++ channel,
                   target := channel }] }
        else ch) := by
      refine messagesExtend_map hnd
        (fun c => by first | (dsimp only; split <;> rfl) | (split <;> rfl)) ?_
      intro c
      first | dsimp only | skip
      split
      · exact ⟨[_], rfl⟩
      · exact ⟨[], by simp⟩
    show MessagesExtend s.channels ((onKick s sid channel nick byNick
      reason uid ts).1.channels)
    unfold onKick
    cases hs : s.activeServer with
    | none => exact hmap
    | some srv =>
      dsimp only
      by_cases hl : (jsToLower nick == jsToLower srv.nickname) = true
      · rw [if_pos hl]
        by_cases hac : (s.activeChannelId == some (sid ++ channel)) = true
        · rw [if_pos hac]
          exact hmap
        · rw [if_neg (by simpa using hac)]
          exact hmap
      · rw [if_neg hl]
        exact hmap


/-- C2: when the discovery-end event is processed, the listing flag drops
and the available-channels list is exactly the stable sort (`mergeSort`)
of the previous list by the specification's discovery order
`specDiscoveryLE`: entries with a defined `userCount` precede entries
without one, defined counts descend with ties broken by case-insensitive
ascending name, count-less entries are ordered by case-insensitive
ascending name; the result is a permutation of the input, pairwise ordered
by `specDiscoveryLE`, and stability holds: any correctly-ordered (in
particular, any tied) pair keeps its relative order.  Stated for `lcModel`,
the case-insensitive-ascending model of the host's `localeCompare`. -/
theorem discovery_end_sorting (s : ClientState) :
    (onAvailableChannelsEnd lcModel s).availableChannels
      = s.availableChannels.mergeSort specDiscoveryLE ∧
    List.Perm ((onAvailableChannelsEnd lcModel s).availableChannels)
      s.availableChannels ∧
    ((onAvailableChannelsEnd lcModel s).availableChannels).Pairwise
      (fun a b => specDiscoveryLE a b = true) ∧
    (∀ a b : AvailableChannelInfo, specDiscoveryLE a b = true →
      List.Sublist [a, b] s.availableChannels →
      List.Sublist [a, b]
        ((onAvailableChannelsEnd lcModel s).availableChannels)) ∧
    (onAvailableChannelsEnd lcModel s).isListingChannels = false := by
  have hfn : (fun a b : AvailableChannelInfo =>
      decide (availableChannelsCmp lcModel a b ≤ 0)) = specDiscoveryLE := by
    funext a b
    exact cmp_agrees_with_spec a b
  have h1 : (onAvailableChannelsEnd lcModel s).availableChannels
      = s.availableChannels.mergeSort specDiscoveryLE := by
    simp only [onAvailableChannelsEnd]
    rw [hfn]
  refine ⟨h1, ?_, ?_, ?_, rfl⟩
  · rw [h1]
    exact List.mergeSort_perm _ _
  · rw [h1]
    exact List.sorted_mergeSort
      (fun a b c hab hbc => specDiscoveryLE_trans a b c hab hbc)
      (fun a b => specDiscoveryLE_total a b) _
  · intro a b hab hsub
    rw [h1]
    exact List.pair_sublist_mergeSort
      (fun a b c hab hbc => specDiscoveryLE_trans a b c hab hbc)
      (fun a b => specDiscoveryLE_total a b) hab hsub


/-- Concrete check of the specification's sorting example: `#a`(5),
`#b`(10), `#c`(no count) sorts to `#b`, `#a`, `#c`. -/
theorem discovery_example :
    (onAvailableChannelsEnd lcModel fixDiscoveryState).availableChannels.map
      AvailableChannelInfo.name = ["#b", "#a", "#c"] := by
  simp +decide [onAvailableChannelsEnd, fixDiscoveryState, fixState,
    List.mergeSort, List.splitInTwo, List.splitAt, List.splitAt.go,
    List.merge, availableChannelsCmp, lcModel, lexLt, jsToLower]


/-- C3: when a nick-change event is processed, every channel in which the
old nick is a member (case-insensitively) or whose casefolded name is in
the affected list has the matching member entries rewritten to the new
nick (both the `nickname` field and the `id` key, so the member is keyed
by the casefolded new nick in every subsequent identity comparison) with
all other members untouched, and exactly one `nick` message appended;
channels matching neither condition are unchanged; if the old nick
casefold-equals the session's own nickname the session nickname is
updated.  Previously appended messages are untouched (the new message list
is the old one plus one element). -/
theorem nick_change_rewrites_members
    (s : ClientState) (oldNick newNick : String)
    (nickChannels : List String) (uid : String) (ts : Nat) :
    ((onNickChange s oldNick newNick nickChannels uid ts).channels.length
      = s.channels.length) ∧
    (∀ (i : Nat) (ch : Channel), s.channels[i]? = some ch →
      ((ch.users.any (fun u => jsToLower u.nickname == jsToLower oldNick)
          || nickChannels.contains (jsToLower ch.name)) = true →
        ∃ ch', (onNickChange s oldNick newNick nickChannels uid ts).channels[i]?
            = some ch' ∧
          ch'.id = ch.id ∧ ch'.name = ch.name ∧
          ch'.serverId = ch.serverId ∧ ch'.topic = ch.topic ∧
          ch'.users.length = ch.users.length ∧
          (∀ (j : Nat) (u : User), ch.users[j]? = some u →
            (jsToLower u.nickname = jsToLower oldNick →
              ch'.users[j]? =
                some { u with nickname := newNick, id := newNick }) ∧
            (jsToLower u.nickname ≠ jsToLower oldNick →
              ch'.users[j]? = some u)) ∧
          ch'.messages = ch.messages ++
            [{ id := uid, timestamp := ts, oldNickname := some oldNick,
               nickname := some newNick, type := .nick, content := "",
               channelId := ch.id, target := ch.name }]) ∧
      ((ch.users.any (fun u => jsToLower u.nickname == jsToLower oldNick)
          || nickChannels.contains (jsToLower ch.name)) = false →
        (onNickChange s oldNick newNick nickChannels uid ts).channels[i]?
          = some ch)) ∧
    (∀ srv : ServerConnection, s.activeServer = some srv →
      (jsToLower srv.nickname = jsToLower oldNick →
        (onNickChange s oldNick newNick nickChannels uid ts).activeServer
          = some { srv with nickname := newNick }) ∧
      (jsToLower srv.nickname ≠ jsToLower oldNick →
        (onNickChange s oldNick newNick nickChannels uid ts).activeServer
          = some srv)) ∧
    (s.activeServer = none →
      (onNickChange s oldNick newNick nickChannels uid ts).activeServer
        = none) := by
  refine ⟨?_, ?_, ?_, ?_⟩
  · unfold onNickChange
    cases s.activeServer with
    | none => simp
    | some srv =>
      cases h : jsToLower srv.nickname == jsToLower oldNick <;> simp [h]
  · intro i ch hch
    have hchans : (onNickChange s oldNick newNick nickChannels uid ts).channels
        = s.channels.map (fun ch =>
          if (ch.users.any (fun u =>
                jsToLower u.nickname == jsToLower oldNick)
              || nickChannels.contains (jsToLower ch.name)) then
            { ch with
                users := ch.users.map (fun u =>
                  if jsToLower u.nickname == jsToLower oldNick then
                    { u with nickname := newNick, id := newNick }
                  else u),
                messages := ch.messages ++
                  [{ id := uid, timestamp := ts,
                     oldNickname := some oldNick,
                     nickname := some newNick, type := .nick, content := "",
                     channelId := ch.id, target := ch.name }] }
          else ch) := by
      unfold onNickChange
      cases s.activeServer with
      | none => simp
      | some srv =>
        cases h : jsToLower srv.nickname == jsToLower oldNick <;> simp [h]
    rw [hchans]
    constructor
    · intro hcond
      rw [List.getElem?_map, hch]
      simp only [Option.map_some']
      rw [if_pos hcond]
      refine ⟨_, rfl, rfl, rfl, rfl, rfl, by simp, ?_, rfl⟩
      intro j u hu
      constructor
      · intro hlow
        rw [List.getElem?_map, hu]
        simp only [Option.map_some']
        rw [if_pos (by simp [hlow])]
      · intro hlow
        rw [List.getElem?_map, hu]
        simp only [Option.map_some']
        rw [if_neg (by simpa using hlow)]
    · intro hcond
      rw [List.getElem?_map, hch]
      simp only [Option.map_some']
      rw [if_neg (by simp only [hcond]; exact Bool.false_ne_true)]
  · intro srv hsrv
    constructor
    · intro hlow
      simp only [onNickChange, hsrv]
      rw [if_pos (by simp [hlow])]
    · intro hlow
      simp only [onNickChange, hsrv]
      rw [if_neg (by simpa using hlow)]
  · intro hnone
    simp only [onNickChange, hnone]


/-- C4: a private message arriving through the service's `message` handler
(target not a channel) carries the derived channel id `serverId ++
casefold(sender nick)`; if no local channel has that id, processing it
creates exactly one new channel with that id, exactly two members (self
and the sender) and exactly the one arriving message, leaving all other
channels unchanged; if a channel with that id exists, the message is
appended to it instead and no channel is created. -/
theorem private_message_creates_or_appends
    (s : ClientState) (srv : ServerConnection)
    (sid nick target text : String) (currentNick : Option String)
    (uid : String) (ts : Nat)
    (hsrv : s.activeServer = some srv)
    (htarget : jsStartsWith target "#" = false)
    (hnick : jsStartsWith (jsToLower nick) "#" = false)
    (hne : nick ≠ "") :
    (svcMessageEvent sid nick target text currentNick uid ts).channelId =
      sid ++ jsToLower nick ∧
    (svcMessageEvent sid nick target text currentNick uid ts).isSelf = false ∧
    ((∀ ch ∈ s.channels, ch.id ≠ sid ++ jsToLower nick) →
      (onChannelMessage s sid
          (svcMessageEvent sid nick target text currentNick uid ts)).channels
        = s.channels ++
          [{ id := sid ++ jsToLower nick, serverId := sid, name := nick,
             users := [{ id := srv.nickname, nickname := srv.nickname },
                       { id := nick, nickname := nick }],
             messages :=
               [svcMessageEvent sid nick target text currentNick uid ts],
             topic := some
               { text := "Private messages with " ++ nick } }]) ∧
    ((∃ ch ∈ s.channels, ch.id = sid ++ jsToLower nick) →
      (onChannelMessage s sid
          (svcMessageEvent sid nick target text currentNick uid ts)).channels.length
        = s.channels.length ∧
      ∀ (i : Nat) (ch : Channel), s.channels[i]? = some ch →
        (ch.id = sid ++ jsToLower nick →
          (onChannelMessage s sid
              (svcMessageEvent sid nick target text currentNick uid ts)).channels[i]?
            = some { ch with messages := ch.messages ++
                [svcMessageEvent sid nick target text currentNick uid ts] }) ∧
        (ch.id ≠ sid ++ jsToLower nick →
          (onChannelMessage s sid
              (svcMessageEvent sid nick target text currentNick uid ts)).channels[i]?
            = some ch)) := by
  have hmsg : svcMessageEvent sid nick target text currentNick uid ts =
      { id := uid, timestamp := ts, nickname := some nick, content := text,
        type := .message, channelId := sid ++ jsToLower nick,
        target := jsToLower nick, isSelf := false } := by
    simp [svcMessageEvent, htarget]
  generalize hg : svcMessageEvent sid nick target text currentNick uid ts = msg
  rw [hg] at hmsg
  have hcid : msg.channelId = sid ++ jsToLower nick := by rw [hmsg]
  have htgt : msg.target = jsToLower nick := by rw [hmsg]
  have hisSelf : msg.isSelf = false := by rw [hmsg]
  have hnn : msg.nickname = some nick := by rw [hmsg]
  refine ⟨hcid, hisSelf, ?_, ?_⟩
  · intro hnone
    have hany : (s.channels.any fun ch => ch.id == msg.channelId) = false := by
      rw [hcid]
      simp only [List.any_eq_false, beq_iff_eq]
      exact hnone
    have hupd : (s.channels.map fun ch =>
        if ch.id == sid ++ jsToLower nick then
          { ch with messages := ch.messages ++ [msg] }
        else ch) = s.channels := by
      apply map_eq_self_of
      intro ch hch
      rw [if_neg (by simpa using hnone ch hch)]
    simp only [onChannelMessage, hsrv, hnn, hany, htgt, hnick, hisSelf, hcid]
    rw [if_pos (by simp [hne]; exact hnone)]
    dsimp only
    rw [hupd]
    simp
  · intro hex
    have hany : (s.channels.any fun ch => ch.id == msg.channelId) = true := by
      rw [hcid]
      simp only [List.any_eq_true]
      obtain ⟨ch, hch, hid⟩ := hex
      exact ⟨ch, hch, by simp [hid]⟩
    simp only [onChannelMessage, hsrv, hnn, hany, Bool.not_true, Bool.false_and]
    rw [if_neg (by simp)]
    refine ⟨by simp, ?_⟩
    intro i ch hch
    constructor
    · intro hid
      rw [List.getElem?_map, hch]
      simp only [Option.map_some']
      rw [hcid, if_pos (by simp [hid])]
    · intro hid
      rw [List.getElem?_map, hch]
      simp only [Option.map_some']
      rw [hcid, if_neg (by simpa using hid)]


/-- C5: when a kick event is processed, the channel whose id matches has
exactly the members whose casefolded nickname differs from the kicked nick
(so the kicked nick is removed case-insensitively and nobody else is),
and exactly one `kick` message appended carrying `kicked` = the kicked
nick, `nickname` = the kicker and `kickReason` = the reason; every other
channel is unchanged; and the active-view-invalidated signal naming the
channel is emitted exactly when the kicked nick casefold-equals the
session's own nickname. -/
theorem kick_removes_member_and_appends
    (s : ClientState) (srv : ServerConnection)
    (sid channel nick byNick : String) (reason : Option String)
    (uid : String) (ts : Nat)
    (hsrv : s.activeServer = some srv) :
    ((onKick s sid channel nick byNick reason uid ts).1.channels.length
      = s.channels.length) ∧
    (∀ (i : Nat) (ch : Channel), s.channels[i]? = some ch →
      (ch.id = sid ++ channel →
        ∃ ch', (onKick s sid channel nick byNick reason uid ts).1.channels[i]?
            = some ch' ∧
          ch'.id = ch.id ∧ ch'.name = ch.name ∧
          ch'.serverId = ch.serverId ∧ ch'.topic = ch.topic ∧
          (∀ u : User, u ∈ ch'.users ↔
            u ∈ ch.users ∧ jsToLower u.nickname ≠ jsToLower nick) ∧
          ∃ m : Message, ch'.messages = ch.messages ++ [m] ∧
            m.type = .kick ∧ m.kicked = some nick ∧
            m.nickname = some byNick ∧ m.kickReason = reason ∧
            m.channelId = ch.id) ∧
      (ch.id ≠ sid ++ channel →
        (onKick s sid channel nick byNick reason uid ts).1.channels[i]?
          = some ch)) ∧
    (jsToLower nick = jsToLower srv.nickname →
      Effect.activeViewInvalidated channel ∈
        (onKick s sid channel nick byNick reason uid ts).2) ∧
    (jsToLower nick ≠ jsToLower srv.nickname →
      (onKick s sid channel nick byNick reason uid ts).2 = []) := by
  unfold onKick
  rw [hsrv]
  refine ⟨?_, ?_, ?_, ?_⟩
  · cases h : jsToLower nick == jsToLower srv.nickname <;>
      cases h2 : s.activeChannelId == some (sid ++ channel) <;>
      simp [h, h2]
  · intro i ch hch
    constructor
    · intro hid
      refine ⟨{ ch with
          users := ch.users.filter
            (fun u => jsToLower u.nickname != jsToLower nick),
          messages := ch.messages ++
            [{ id := uid, timestamp := ts, nickname := some byNick,
               kicked := some nick, kickReason := reason,
               content := nick ++ " was kicked from " ++ channel ++ " by "
                 ++ byNick ++ " (" ++ jsOrStr reason "No reason" ++ ")",
               type := .kick, channelId := sid ++ channel,
               target := channel }] }, ?_, ?_⟩
      · cases h : jsToLower nick == jsToLower srv.nickname <;>
          cases h2 : s.activeChannelId == some (sid ++ channel) <;>
          simp [h, h2, List.getElem?_map, hch, hid]
      · refine ⟨rfl, rfl, rfl, rfl, ?_, ?_⟩
        · intro u
          simp [List.mem_filter]
        · exact ⟨_, rfl, rfl, rfl, rfl, rfl, by simp [hid]⟩
    · intro hid
      cases h : jsToLower nick == jsToLower srv.nickname <;>
        cases h2 : s.activeChannelId == some (sid ++ channel) <;>
        simp [h, h2, List.getElem?_map, hch, if_neg, hid]
  · intro hself
    cases h2 : s.activeChannelId == some (sid ++ channel) <;>
      simp [hself, h2]
  · intro hself
    have h : (jsToLower nick == jsToLower srv.nickname) = false := by
      simpa using hself
    cases h2 : s.activeChannelId == some (sid ++ channel) <;>
      simp [h, h2]


/-- C6 (code bug): in a connected session viewing `#test`, sending the
action `/me waves` forwards an `action` command to the protocol layer but
appends no optimistic message — the state is unchanged — because the
optimistic-append guard in `handleSendMessage` excludes every text
starting with `/`, even though the unreachable ternaries inside it were
written to format exactly this action case; a plain `hello` does get its
optimistic self-message. -/
theorem me_action_send_skips_optimistic_append :
    connState fixState = .Connected ∧
    (handleSendMessage fixState "/me waves" "u1" 5).2 =
      [.cmdAction "#test" "waves"] ∧
    (handleSendMessage fixState "/me waves" "u1" 5).1 = fixState ∧
    (handleSendMessage fixState "hello" "u1" 5).1.channels.map
      (fun ch => ch.messages.map Message.content) = [["hello"]] := by decide


/-- C7: if `executeJoinChannel` is called twice on a connected session with
non-blank names whose sigil-normalized forms differ only by letter case,
the second call signals `AlreadyJoined`, leaves the channel list (and every
other state component except the active target) exactly as after the first
call — so no second entry is ever created — and surfaces the existing
channel id as the active target. -/
theorem joinChannel_twice_case_insensitive
    (s : ClientState) (srv : ServerConnection) (n1 n2 u1 u2 : String)
    (t1 t2 : Nat)
    (hsrv : s.activeServer = some srv) (hconn : srv.isConnected = true)
    (h1 : jsTrim n1 ≠ "") (h2 : jsTrim n2 ≠ "")
    (hcase : jsToLower (properChannelName n1) =
             jsToLower (properChannelName n2)) :
    (executeJoinChannel (executeJoinChannel s n1 u1 t1).1 n2 u2 t2).2 =
      [.toastAlreadyJoined (properChannelName n2)] ∧
    (executeJoinChannel (executeJoinChannel s n1 u1 t1).1 n2 u2 t2).1.channels
      = (executeJoinChannel s n1 u1 t1).1.channels ∧
    (executeJoinChannel (executeJoinChannel s n1 u1 t1).1 n2 u2 t2).1.activeChannelId
      = some (srv.id ++ jsToLower (properChannelName n2)) ∧
    (executeJoinChannel (executeJoinChannel s n1 u1 t1).1 n2 u2 t2).1.activeServer
      = (executeJoinChannel s n1 u1 t1).1.activeServer ∧
    (executeJoinChannel (executeJoinChannel s n1 u1 t1).1 n2 u2 t2).1.availableChannels
      = (executeJoinChannel s n1 u1 t1).1.availableChannels ∧
    (executeJoinChannel (executeJoinChannel s n1 u1 t1).1 n2 u2 t2).1.serverLogMessages
      = (executeJoinChannel s n1 u1 t1).1.serverLogMessages := by
  obtain ⟨hex1, hsrv1⟩ := join_ensures_channel s srv n1 u1 t1 hsrv hconn h1
  have hsrv1' : (executeJoinChannel s n1 u1 t1).1.activeServer = some srv := by
    rw [hsrv1, hsrv]
  have hex2 : ∃ ch ∈ (executeJoinChannel s n1 u1 t1).1.channels,
      ch.id = srv.id ++ jsToLower (properChannelName n2) := by
    rw [← hcase]; exact hex1
  have h := join_already (executeJoinChannel s n1 u1 t1).1 srv n2 u2 t2
    hsrv1' hconn h2 hex2
  rw [h]
  exact ⟨rfl, rfl, rfl, rfl, rfl, rfl⟩


/-- C8 counterexample: a fatal `SocketError` on a connected session with a
non-empty channel list and discovery list moves `connectionState` to
`Disconnected` but clears neither list — contradicting the claim that a
fatal connection-class error clears both. -/
theorem fatal_error_keeps_channel_lists :
    connState (onError fixState "chat.example:6667" "SocketError"
        "read ECONNRESET" "u9" 9).1 = .Disconnected ∧
    (onError fixState "chat.example:6667" "SocketError"
        "read ECONNRESET" "u9" 9).1.channels = fixState.channels ∧
    fixState.channels ≠ [] ∧
    (onError fixState "chat.example:6667" "SocketError"
        "read ECONNRESET" "u9" 9).1.availableChannels
      = fixState.availableChannels ∧
    fixState.availableChannels ≠ [] := by decide

/-- C8 (amended): a close/socket-close event (`onDisconnect`) moves the
session to `Disconnected`, clears the channel list and the discovery list
and appends the reason to the server log; a fatal connection-class error
only moves the session to `Disconnected` and appends the classified error
to the server log, leaving the channel list and discovery list unchanged;
a non-connection-class error only appends the classified error, leaving
`activeServer`, channels and discovery list unchanged. -/
theorem disconnect_clears_error_classifies
    (s : ClientState) (srv : ServerConnection)
    (sid etype emsg : String) (reason : Option String)
    (uid : String) (ts : Nat)
    (hsrv : s.activeServer = some srv) (hsid : sid = srv.id) :
    (connState (onDisconnect s sid reason uid ts).1 = .Disconnected ∧
     (onDisconnect s sid reason uid ts).1.channels = [] ∧
     (onDisconnect s sid reason uid ts).1.availableChannels = [] ∧
     (onDisconnect s sid reason uid ts).1.serverLogMessages =
       s.serverLogMessages ++
         [{ id := uid, timestamp := ts, target := sid,
            content := "Disconnected from " ++ sid ++ ". Reason: " ++
              jsOrStr reason "Unknown",
            type := .info, channelId := sid }]) ∧
    (connectionErrorTypes.contains etype = true →
      connState (onError s sid etype emsg uid ts).1 = .Disconnected ∧
      (onError s sid etype emsg uid ts).1.channels = s.channels ∧
      (onError s sid etype emsg uid ts).1.availableChannels
        = s.availableChannels ∧
      (onError s sid etype emsg uid ts).1.serverLogMessages =
        s.serverLogMessages ++
          [{ id := uid, timestamp := ts, target := sid,
             content := "Error on " ++ sid ++ ": " ++ etype ++ " - " ++ emsg,
             type := .error, channelId := sid }]) ∧
    (connectionErrorTypes.contains etype = false →
      (onError s sid etype emsg uid ts).1.activeServer = s.activeServer ∧
      (onError s sid etype emsg uid ts).1.channels = s.channels ∧
      (onError s sid etype emsg uid ts).1.availableChannels
        = s.availableChannels ∧
      (onError s sid etype emsg uid ts).1.serverLogMessages =
        s.serverLogMessages ++
          [{ id := uid, timestamp := ts, target := sid,
             content := "Error on " ++ sid ++ ": " ++ etype ++ " - " ++ emsg,
             type := .error, channelId := sid }]) := by
  subst hsid
  refine ⟨?_, ?_, ?_⟩
  · simp [onDisconnect, hsrv, connState]
  · intro hfatal
    have hmem : etype ∈ connectionErrorTypes := by simpa using hfatal
    simp [onError, hsrv, hmem, connState]
  · intro hfatal
    have hmem : etype ∉ connectionErrorTypes := by simpa using hfatal
    simp [onError, hsrv, hmem, connState]


/-- C9 counterexample: calling `handleConnect` while `connectionState` is
`Connecting` is not a no-op: the server log (two messages) is reset to a
single "attempting" message and a fresh connect command is forwarded to
the Protocol Event Source. -/
theorem connect_while_connecting_is_not_noop :
    connState fixConnectingState = .Connecting ∧
    fixConnectingState.serverLogMessages.length = 2 ∧
    (handleConnect fixConnectingState fixDetails
      "u-new" 3).1.serverLogMessages.length = 1 ∧
    (handleConnect fixConnectingState fixDetails "u-new" 3).2 =
      [.cmdConnect "irc.other" 6667 "bob"] := by decide

/-- C9 (amended): `handleConnect` has no guard on the current connection
state; called in any state — in particular while `Connecting` — it resets
channels, the discovery list and the server log (to the single
attempting-to-connect message), installs a fresh connecting session and
forwards a new connection attempt.  No `AlreadyConnecting` signal exists
in the code; double-connect is prevented only by the presentation layer
disabling its buttons. -/
theorem connect_resets_and_forwards (s : ClientState) (d : ConnectDetails)
    (uid : String) (ts : Nat) (hconn : connState s = .Connecting) :
    (handleConnect s d uid ts).1.channels = [] ∧
    (handleConnect s d uid ts).1.availableChannels = [] ∧
    (handleConnect s d uid ts).1.serverLogMessages =
      [{ id := uid, timestamp := ts,
         content := "Attempting to connect to " ++ d.host ++ "...",
         type := .info,
         channelId := d.host ++ ":" ++ toString d.port,
         target := d.host ++ ":" ++ toString d.port }] ∧
    (handleConnect s d uid ts).1.activeServer = some
      { id := d.host ++ ":" ++ toString d.port, host := d.host,
        port := d.port, nickname := d.nickname, password := d.password,
        realName := d.realName, email := d.email,
        isConnected := false, isConnecting := true } ∧
    connState (handleConnect s d uid ts).1 = .Connecting ∧
    (handleConnect s d uid ts).2 = [.cmdConnect d.host d.port d.nickname]
    := by
  simp [handleConnect, connState]


/-- Helper: the server-log invariant transfers between states with the same
session and log. -/
theorem serverLogInv_same {s t : ClientState}
    (h : ServerLogInv s)
    (hsrv : t.activeServer = s.activeServer)
    (hlog : t.serverLogMessages = s.serverLogMessages) :
    ServerLogInv t := by
  unfold ServerLogInv at h ⊢
  rw [hsrv, hlog]
  exact h

/-- Helper: the channel-message invariant transfers between states with the
same channel list. -/
theorem channelMsgInv_same {s t : ClientState}
    (h : ChannelMsgInv s) (hch : t.channels = s.channels) :
    ChannelMsgInv t := by
  unfold ChannelMsgInv at h ⊢
  rw [hch]
  exact h

/-- C10: every reduction of the synchronizer preserves the invariant that
each message stored in a channel carries that channel's id, and — for
events coherent with the session (the service always stamps its callbacks
with the session's server id) — that each server-log message carries the
session's server id. -/
theorem step_preserves_channelId (lc : String → String → Int)
    (s : ClientState) (e : Ev)
    (hch : ChannelMsgInv s) (hsl : ServerLogInv s)
    (hco : EvCoherent s e) :
    ChannelMsgInv (step lc s e).1 ∧ ServerLogInv (step lc s e).1 := by
  cases e with
  | userConnect details uid ts =>
    constructor
    · intro ch hc
      simp [step, handleConnect] at hc
    · unfold ServerLogInv
      intro m hm
      simp [step, handleConnect] at hm ⊢
      simp [hm]
  | userDisconnect =>
    cases hs : s.activeServer with
    | none =>
      refine ⟨channelMsgInv_same hch ?_, serverLogInv_same hsl ?_ ?_⟩ <;>
        simp [step, handleDisconnect, hs]
    | some srv =>
      refine ⟨channelMsgInv_same hch ?_, serverLogInv_same hsl ?_ ?_⟩ <;>
        simp [step, handleDisconnect, hs]
  | userSaveSettings n r m =>
    cases hs : s.activeServer with
    | none =>
      refine ⟨channelMsgInv_same hch ?_, serverLogInv_same hsl ?_ ?_⟩ <;>
        simp [step, handleSaveSettings, hs]
    | some srv =>
      refine ⟨channelMsgInv_same hch (by simp [step, handleSaveSettings, hs]), ?_⟩
      unfold ServerLogInv
      have hlog : (step lc s (.userSaveSettings n r m)).1.serverLogMessages
          = s.serverLogMessages := by
        simp [step, handleSaveSettings, hs]
      have hsrv : (step lc s (.userSaveSettings n r m)).1.activeServer
          = some { srv with
              nickname := if n == srv.nickname then srv.nickname else n,
              realName := r, email := m } := by
        simp [step, handleSaveSettings, hs]
      rw [hsrv, hlog]
      intro m' hm'
      have := hsl
      unfold ServerLogInv at this
      rw [hs] at this
      exact this m' hm'
  | userJoinChannel name uid ts =>
    cases hs : s.activeServer with
    | none =>
      refine ⟨channelMsgInv_same hch ?_, serverLogInv_same hsl ?_ ?_⟩ <;>
        simp [step, executeJoinChannel, hs]
    | some srv =>
      by_cases hg : (!srv.isConnected || jsTrim name == "") = true
      · refine ⟨channelMsgInv_same hch ?_, serverLogInv_same hsl ?_ ?_⟩ <;>
          simp [step, executeJoinChannel, hs, hg]
      · cases hf : s.channels.find? (fun c =>
            c.id == srv.id ++ jsToLower (properChannelName name)) with
        | some ch =>
          refine ⟨channelMsgInv_same hch ?_, serverLogInv_same hsl ?_ ?_⟩ <;>
            simp [step, executeJoinChannel, hs, hg, hf]
        | none =>
          refine ⟨?_, serverLogInv_same hsl ?_ ?_⟩
          · intro ch hc m hm
            have hres : (step lc s (.userJoinChannel name uid ts)).1.channels
                = s.channels ++
                  [{ id := srv.id ++ jsToLower (properChannelName name),
                     serverId := srv.id, name := properChannelName name,
                     users := [{ id := srv.nickname,
                                 nickname := srv.nickname }],
                     messages := [{ id := uid, timestamp := ts,
                                    type := .info,
                                    content := "Joining " ++
                                      properChannelName name ++ "...",
                                    channelId := srv.id ++
                                      jsToLower (properChannelName name),
                                    target := properChannelName name }],
                     topic := some { text := "Joining " ++
                                       properChannelName name ++ "..." } }]
                := by
              simp [step, executeJoinChannel, hs, hg, hf]
            rw [hres] at hc
            rcases List.mem_append.mp hc with h1 | h1
            · exact hch ch h1 m hm
            · have hche := List.mem_singleton.mp h1
              subst hche
              have hmm := List.mem_singleton.mp hm
              subst hmm
              rfl
          · simp [step, executeJoinChannel, hs, hg, hf]
          · simp [step, executeJoinChannel, hs, hg, hf]
  | userLeaveChannel cid =>
    cases hs : s.activeServer with
    | none =>
      refine ⟨channelMsgInv_same hch ?_, serverLogInv_same hsl ?_ ?_⟩ <;>
        simp [step, handleLeaveChannel, hs]
    | some srv =>
      cases hf : s.channels.find? (fun c => c.id == cid) with
      | none =>
        refine ⟨channelMsgInv_same hch ?_, serverLogInv_same hsl ?_ ?_⟩ <;>
          simp [step, handleLeaveChannel, hs, hf]
      | some ch =>
        by_cases hac : (s.activeChannelId == some cid) = true
        · refine ⟨?_, serverLogInv_same hsl ?_ ?_⟩
          · intro ch2 hc2 m hm
            have : ch2 ∈ s.channels := by
              have hres := hc2
              simp only [step, handleLeaveChannel, hs, hf, hac] at hres
              simp at hres
              exact hres.1
            exact hch ch2 this m hm
          · simp [step, handleLeaveChannel, hs, hf, hac]
          · simp [step, handleLeaveChannel, hs, hf, hac]
        · refine ⟨?_, serverLogInv_same hsl ?_ ?_⟩
          · intro ch2 hc2 m hm
            have hmem : ch2 ∈ s.channels := by
              have hres := hc2
              simp only [step, handleLeaveChannel, hs, hf] at hres
              rw [if_neg (by simpa using hac)] at hres
              simp at hres
              exact hres.1
            exact hch ch2 hmem m hm
          · simp only [step, handleLeaveChannel, hs, hf]
            rw [if_neg (by simpa using hac)]
          · simp only [step, handleLeaveChannel, hs, hf]
            rw [if_neg (by simpa using hac)]
  | userSelectChannel tid =>
    have hres : (step lc s (.userSelectChannel tid)).1
        = { s with activeChannelId := some tid } := by
      cases hs : s.activeServer with
      | none => simp [step, handleSelectChannel, hs]
      | some srv =>
        by_cases hc : (jsIncludes tid '#' && srv.isConnected) = true
        · cases hf : s.channels.find? (fun c => c.id == tid) with
          | none => simp [step, handleSelectChannel, hs, hc, hf]
          | some ch =>
            by_cases hu : ch.users.length ≤ 1
            · simp [step, handleSelectChannel, hs, hc, hf, hu]
            · simp [step, handleSelectChannel, hs, hc, hf, hu]
        · simp [step, handleSelectChannel, hs, hc]
    rw [hres]
    exact ⟨channelMsgInv_same hch rfl, serverLogInv_same hsl rfl rfl⟩
  | userSendMessage text uid ts =>
    cases hs : s.activeServer with
    | none =>
      refine ⟨channelMsgInv_same hch ?_, serverLogInv_same hsl ?_ ?_⟩ <;>
        simp [step, handleSendMessage, hs]
    | some srv =>
      cases ht : currentTargetOf s with
      | none =>
        refine ⟨channelMsgInv_same hch ?_, serverLogInv_same hsl ?_ ?_⟩ <;>
          simp [step, handleSendMessage, hs, ht]
      | some tgt =>
        obtain ⟨tid, tname, isServer⟩ := tgt
        by_cases h1 : srv.isConnected
        · by_cases h2c : (isServer || tname == "") = true
          · refine ⟨channelMsgInv_same hch ?_,
              serverLogInv_same hsl ?_ ?_⟩ <;>
              simp [step, handleSendMessage, hs, ht, h1, h2c]
          · by_cases h3 : (tid != "" && srv.nickname != ""
                && !(jsStartsWith text "/")) = true
            · refine ⟨?_, serverLogInv_same hsl ?_ ?_⟩
              · have hres : (step lc s
                    (.userSendMessage text uid ts)).1.channels
                    = s.channels.map (fun ch =>
                      if ch.id == tid then
                        { ch with messages := ch.messages ++
                          [{ id := uid, timestamp := ts,
                             nickname := some srv.nickname,
                             content := if jsStartsWith text "/me " then
                                 jsDrop text 4 else text,
                             type := if jsStartsWith text "/me " then
                                 .action else .message,
                             channelId := tid, target := tname,
                             isSelf := true }] }
                      else ch) := by
                  simp [step, handleSendMessage, hs, ht, h1, h2c, h3]
                intro ch hc m hm
                rw [hres] at hc
                refine channelMsgInv_map ?_ hch ch hc m hm
                intro c hcm m' hm'
                dsimp only at hm' ⊢
                by_cases hcond : (c.id == tid) = true
                · rw [if_pos hcond] at hm' ⊢
                  rcases List.mem_append.mp hm' with hx | hx
                  · exact hcm m' hx
                  · have hmm := List.mem_singleton.mp hx
                    subst hmm
                    exact ((beq_iff_eq).mp hcond).symm
                · rw [if_neg hcond] at hm' ⊢
                  exact hcm m' hm'
              · simp [step, handleSendMessage, hs, ht, h1, h2c, h3]
              · simp [step, handleSendMessage, hs, ht, h1, h2c, h3]
            · refine ⟨channelMsgInv_same hch ?_,
                serverLogInv_same hsl ?_ ?_⟩ <;>
                simp [step, handleSendMessage, hs, ht, h1, h2c, h3]
        · refine ⟨channelMsgInv_same hch ?_,
            serverLogInv_same hsl ?_ ?_⟩ <;>
            simp [step, handleSendMessage, hs, ht, h1]
  | evConnect sid uid ts =>
    refine ⟨channelMsgInv_same hch (by simp [step, onConnect]), ?_⟩
    unfold ServerLogInv
    cases hs : s.activeServer with
    | none =>
      have hres : (step lc s (.evConnect sid uid ts)).1.activeServer
          = none := by
        simp [step, onConnect, hs]
      rw [hres]
      trivial
    | some prev =>
      have hsid : sid = prev.id := by
        have := hco
        unfold EvCoherent sidOk at this
        rw [hs] at this
        exact this
      subst hsid
      have hres : (step lc s (.evConnect prev.id uid ts)).1.activeServer
          = some { prev with isConnected := true, isConnecting := false }
          := by
        simp [step, onConnect, hs]
      have hlog : (step lc s (.evConnect prev.id uid ts)).1.serverLogMessages
          = s.serverLogMessages ++
            [{ id := uid, timestamp := ts, target := prev.id,
               content := "Connected to " ++ prev.id ++ ".", type := .info,
               channelId := prev.id }] := by
        simp [step, onConnect, hs]
      rw [hres, hlog]
      intro m hm
      rcases List.mem_append.mp hm with hx | hx
      · have := hsl
        unfold ServerLogInv at this
        rw [hs] at this
        exact this m hx
      · have hmm := List.mem_singleton.mp hx
        subst hmm
        rfl
  | evDisconnect sid reason uid ts =>
    constructor
    · intro ch hc
      simp [step, onDisconnect] at hc
    · unfold ServerLogInv
      cases hs : s.activeServer with
      | none =>
        have hres : (step lc s (.evDisconnect sid reason uid ts)).1.activeServer
            = none := by
          simp [step, onDisconnect, hs]
        rw [hres]
        trivial
      | some prev =>
        by_cases hid : (prev.id == sid) = true
        · have hres : (step lc s
              (.evDisconnect sid reason uid ts)).1.activeServer
              = some { prev with isConnected := false,
                                 isConnecting := false } := by
            simp only [step, onDisconnect, hs]
            rw [if_pos hid]
          have hlog : (step lc s
              (.evDisconnect sid reason uid ts)).1.serverLogMessages
              = s.serverLogMessages ++
                [{ id := uid, timestamp := ts, target := sid,
                   content := "Disconnected from " ++ sid ++ ". Reason: "
                     ++ jsOrStr reason "Unknown",
                   type := .info, channelId := sid }] := by
            simp [step, onDisconnect, hs]
          rw [hres, hlog]
          intro m hm
          rcases List.mem_append.mp hm with hx | hx
          · have := hsl
            unfold ServerLogInv at this
            rw [hs] at this
            exact this m hx
          · have hmm := List.mem_singleton.mp hx
            subst hmm
            exact ((beq_iff_eq).mp hid).symm
        · have hres : (step lc s
              (.evDisconnect sid reason uid ts)).1.activeServer = none := by
            simp only [step, onDisconnect, hs]
            rw [if_neg hid]
          rw [hres]
          trivial
  | evError sid etype emsg uid ts =>
    have hadd : (step lc s (.evError sid etype emsg uid ts)).1.serverLogMessages
        = s.serverLogMessages ++
          [{ id := uid, timestamp := ts, target := sid,
             content := "Error on " ++ sid ++ ": " ++ etype ++ " - "
               ++ emsg,
             type := .error, channelId := sid }] := by
      by_cases hm : etype ∈ connectionErrorTypes
      · cases hs : s.activeServer <;> simp [step, onError, hm, hs]
      · simp [step, onError, hm]
    have hchans : (step lc s (.evError sid etype emsg uid ts)).1.channels
        = s.channels := by
      by_cases hm : etype ∈ connectionErrorTypes
      · cases hs : s.activeServer <;> simp [step, onError, hm, hs]
      · simp [step, onError, hm]
    refine ⟨channelMsgInv_same hch hchans, ?_⟩
    unfold ServerLogInv
    cases hs : s.activeServer with
    | none =>
      have hres : (step lc s (.evError sid etype emsg uid ts)).1.activeServer
          = none := by
        by_cases hm : etype ∈ connectionErrorTypes
        · simp [step, onError, hm, hs]
        · simp [step, onError, hm, hs]
      rw [hres]
      trivial
    | some prev =>
      have hsid : sid = prev.id := by
        have := hco
        unfold EvCoherent sidOk at this
        rw [hs] at this
        exact this
      subst hsid
      have hsome : ∀ m ∈ s.serverLogMessages ++
          [{ id := uid, timestamp := ts, target := prev.id,
             content := "Error on " ++ prev.id ++ ": " ++ etype ++ " - "
               ++ emsg,
             type := .error, channelId := prev.id }],
          m.channelId = prev.id := by
        intro m hm
        rcases List.mem_append.mp hm with hx | hx
        · have := hsl
          unfold ServerLogInv at this
          rw [hs] at this
          exact this m hx
        · have hmm := List.mem_singleton.mp hx
          subst hmm
          rfl
      by_cases hm : etype ∈ connectionErrorTypes
      · have hres : (step lc s
            (.evError prev.id etype emsg uid ts)).1.activeServer
            = some { prev with isConnected := false,
                               isConnecting := false } := by
          simp [step, onError, hm, hs]
        rw [hres, hadd]
        exact hsome
      · have hres : (step lc s
            (.evError prev.id etype emsg uid ts)).1.activeServer
            = some prev := by
          simp [step, onError, hm, hs]
        rw [hres, hadd]
        exact hsome
  | evServerMessage sid msg =>
    refine ⟨channelMsgInv_same hch (by simp [step, onServerMessage]), ?_⟩
    unfold ServerLogInv
    cases hs : s.activeServer with
    | none =>
      have hres : (step lc s (.evServerMessage sid msg)).1.activeServer
          = none := by
        simp [step, onServerMessage, hs]
      rw [hres]
      trivial
    | some srv =>
      obtain ⟨hsid, hmch⟩ : sid = srv.id ∧ msg.channelId = sid := by
        have := hco
        unfold EvCoherent sidOk at this
        rw [hs] at this
        exact this
      have hres : (step lc s (.evServerMessage sid msg)).1.activeServer
          = some srv := by
        simp [step, onServerMessage, hs]
      have hlog : (step lc s (.evServerMessage sid msg)).1.serverLogMessages
          = s.serverLogMessages ++ [msg] := by
        simp [step, onServerMessage]
      rw [hres, hlog]
      intro m hm
      rcases List.mem_append.mp hm with hx | hx
      · have := hsl
        unfold ServerLogInv at this
        rw [hs] at this
        exact this m hx
      · have hmm := List.mem_singleton.mp hx
        subst hmm
        rw [hmch, hsid]
  | evChannelMessage sid msg =>
    have hlog : (onChannelMessage s sid msg).activeServer = s.activeServer ∧
        (onChannelMessage s sid msg).serverLogMessages
          = s.serverLogMessages := by
      unfold onChannelMessage
      cases hs : s.activeServer with
      | none => exact ⟨rfl, rfl⟩
      | some srv =>
        cases hn : msg.nickname with
        | none => exact ⟨rfl, rfl⟩
        | some nick =>
          dsimp only
          split <;> exact ⟨rfl, rfl⟩
    exact ⟨onChannelMessage_inv s sid msg hch,
      serverLogInv_same hsl hlog.1 hlog.2⟩
  | evUserJoined sid cn nick user uid ts =>
    refine ⟨?_, serverLogInv_same hsl rfl rfl⟩
    intro ch hc m hm
    have hc' : ch ∈ s.channels.map (fun c =>
        if c.id == sid ++ cn then
          { c with
              users := if c.users.any (fun u =>
                  jsToLower u.nickname == jsToLower nick) then c.users
                else c.users ++ [user],
              messages := c.messages ++
                [{ id := uid, timestamp := ts, nickname := some nick,
                   type := .join, content := "", channelId := c.id,
                   target := cn }] }
        else c) := hc
    refine channelMsgInv_map ?_ hch ch hc' m hm
    intro c hcm m' hm'
    dsimp only at hm' ⊢
    by_cases hcond : (c.id == sid ++ cn) = true
    · rw [if_pos hcond] at hm' ⊢
      rcases List.mem_append.mp hm' with hx | hx
      · exact hcm m' hx
      · have hmm := List.mem_singleton.mp hx
        subst hmm
        rfl
    · rw [if_neg hcond] at hm' ⊢
      exact hcm m' hm'
  | evUserParted sid cn nick reason uid ts =>
    refine ⟨?_, serverLogInv_same hsl rfl rfl⟩
    intro ch hc m hm
    have hc' : ch ∈ s.channels.map (fun c =>
        if c.id == sid ++ cn then
          { c with
              users := c.users.filter (fun u =>
                jsToLower u.nickname != jsToLower nick),
              messages := c.messages ++
                [{ id := uid, timestamp := ts, nickname := some nick,
                   content := jsOrStr reason "", type := .part,
                   channelId := c.id, target := cn }] }
        else c) := hc
    refine channelMsgInv_map ?_ hch ch hc' m hm
    intro c hcm m' hm'
    dsimp only at hm' ⊢
    by_cases hcond : (c.id == sid ++ cn) = true
    · rw [if_pos hcond] at hm' ⊢
      rcases List.mem_append.mp hm' with hx | hx
      · exact hcm m' hx
      · have hmm := List.mem_singleton.mp hx
        subst hmm
        rfl
    · rw [if_neg hcond] at hm' ⊢
      exact hcm m' hm'
  | evUserQuit sid nick reason chans uid ts =>
    refine ⟨?_, serverLogInv_same hsl rfl rfl⟩
    intro ch hc m hm
    have hc' : ch ∈ s.channels.map (fun c =>
        if chans.contains (jsToLower c.name) then
          { c with
              users := c.users.filter (fun u =>
                jsToLower u.nickname != jsToLower nick),
              messages := c.messages ++
                [{ id := uid, timestamp := ts, nickname := some nick,
                   content := jsOrStr reason "", type := .quit,
                   channelId := c.id, target := c.name }] }
        else c) := hc
    refine channelMsgInv_map ?_ hch ch hc' m hm
    intro c hcm m' hm'
    dsimp only at hm' ⊢
    by_cases hcond : (chans.contains (jsToLower c.name)) = true
    · rw [if_pos hcond] at hm' ⊢
      rcases List.mem_append.mp hm' with hx | hx
      · exact hcm m' hx
      · have hmm := List.mem_singleton.mp hx
        subst hmm
        rfl
    · rw [if_neg hcond] at hm' ⊢
      exact hcm m' hm'
  | evTopicChange sid cn topic nick ts =>
    refine ⟨?_, serverLogInv_same hsl rfl rfl⟩
    intro ch hc m hm
    have hc' : ch ∈ s.channels.map (fun c =>
        if c.id == sid ++ cn then
          { c with topic := some { text := topic, setter := nick,
                                   timestamp := some ts } }
        else c) := hc
    refine channelMsgInv_map ?_ hch ch hc' m hm
    intro c hcm m' hm'
    dsimp only at hm' ⊢
    by_cases hcond : (c.id == sid ++ cn) = true
    · rw [if_pos hcond] at hm' ⊢
      exact hcm m' hm'
    · rw [if_neg hcond] at hm' ⊢
      exact hcm m' hm'
  | evChannelUserList sid cn users =>
    refine ⟨?_, serverLogInv_same hsl rfl rfl⟩
    intro ch hc m hm
    have hc' : ch ∈ s.channels.map (fun c =>
        if c.id == sid ++ cn then { c with users := users } else c) := hc
    refine channelMsgInv_map ?_ hch ch hc' m hm
    intro c hcm m' hm'
    dsimp only at hm' ⊢
    by_cases hcond : (c.id == sid ++ cn) = true
    · rw [if_pos hcond] at hm' ⊢
      exact hcm m' hm'
    · rw [if_neg hcond] at hm' ⊢
      exact hcm m' hm'
  | evAvailableStart sid =>
    exact ⟨channelMsgInv_same hch rfl, serverLogInv_same hsl rfl rfl⟩
  | evAvailableItem sid channel =>
    exact ⟨channelMsgInv_same hch rfl, serverLogInv_same hsl rfl rfl⟩
  | evAvailableEnd sid =>
    exact ⟨channelMsgInv_same hch rfl, serverLogInv_same hsl rfl rfl⟩
  | evNickChange sid o n chans uid ts =>
    have hchan : ∀ t : ClientState,
        t.channels = s.channels.map (fun c =>
          if (c.users.any fun u =>
              jsToLower u.nickname == jsToLower o)
            || chans.contains (jsToLower c.name) then
            { c with
                users := c.users.map (fun u =>
                  if jsToLower u.nickname == jsToLower o then
                    { u with nickname := n, id := n }
                  else u),
                messages := c.messages ++
                  [{ id := uid, timestamp := ts, oldNickname := some o,
                     nickname := some n, type := .nick, content := "",
                     channelId := c.id, target := c.name }] }
          else c) → ChannelMsgInv t := by
      intro t htc ch hc m hm
      rw [htc] at hc
      refine channelMsgInv_map ?_ hch ch hc m hm
      intro c hcm m' hm'
      dsimp only at hm' ⊢
      by_cases hcond : ((c.users.any fun u =>
          jsToLower u.nickname == jsToLower o)
          || chans.contains (jsToLower c.name)) = true
      · rw [if_pos hcond] at hm' ⊢
        rcases List.mem_append.mp hm' with hx | hx
        · exact hcm m' hx
        · have hmm := List.mem_singleton.mp hx
          subst hmm
          rfl
      · rw [if_neg hcond] at hm' ⊢
        exact hcm m' hm'
    cases hs : s.activeServer with
    | none =>
      have hres : (step lc s (.evNickChange sid o n chans uid ts)).1.activeServer
          = none := by
        simp [step, onNickChange, hs]
      refine ⟨hchan _ ?_, ?_⟩
      · simp [step, onNickChange, hs]
      · unfold ServerLogInv
        rw [hres]
        trivial
    | some srv =>
      by_cases hl : (jsToLower srv.nickname == jsToLower o) = true
      · have hres : (step lc s
            (.evNickChange sid o n chans uid ts)).1.activeServer
            = some { srv with nickname := n } := by
          simp only [step, onNickChange, hs]
          first | dsimp only | skip
          rw [if_pos hl]
        have hlog : (step lc s
            (.evNickChange sid o n chans uid ts)).1.serverLogMessages
            = s.serverLogMessages := by
          simp only [step, onNickChange, hs]
          first | dsimp only | skip
          rw [if_pos hl]
        refine ⟨hchan _ ?_, ?_⟩
        · simp only [step, onNickChange, hs]
          first | dsimp only | skip
          rw [if_pos hl]
        · unfold ServerLogInv
          rw [hres, hlog]
          intro m hm
          have := hsl
          unfold ServerLogInv at this
          rw [hs] at this
          exact this m hm
      · have hres : (step lc s
            (.evNickChange sid o n chans uid ts)).1.activeServer
            = some srv := by
          simp only [step, onNickChange, hs]
          first | dsimp only | skip
          rw [if_neg hl]
        have hlog : (step lc s
            (.evNickChange sid o n chans uid ts)).1.serverLogMessages
            = s.serverLogMessages := by
          simp only [step, onNickChange, hs]
          first | dsimp only | skip
          rw [if_neg hl]
        refine ⟨hchan _ ?_, ?_⟩
        · simp only [step, onNickChange, hs]
          first | dsimp only | skip
          rw [if_neg hl]
        · unfold ServerLogInv
          rw [hres, hlog]
          intro m hm
          have := hsl
          unfold ServerLogInv at this
          rw [hs] at this
          exact this m hm
  | evModeChange sid target nick modes params uid ts =>
    by_cases ht : jsStartsWith target "#" = true
    · have hres : (step lc s (.evModeChange sid target nick modes params
          uid ts)).1.channels
          = s.channels.map (fun c =>
            if c.id == sid ++ target then
              { c with messages := c.messages ++
                [{ id := uid, timestamp := ts, nickname := some nick,
                   content := "Mode change: " ++ target ++ " [" ++ modes
                     ++ (if params.length > 0 then
                           " " ++ jsJoinSpace params
                         else "")
                     ++ "] by " ++ nick,
                   type := .mode, channelId := sid ++ target,
                   target := target, modeParams := some params }] }
            else c) := by
        simp [step, onModeChange, ht]
      refine ⟨?_, serverLogInv_same hsl ?_ ?_⟩
      · intro ch hc m hm
        rw [hres] at hc
        refine channelMsgInv_map ?_ hch ch hc m hm
        intro c hcm m' hm'
        dsimp only at hm' ⊢
        by_cases hcond : (c.id == sid ++ target) = true
        · rw [if_pos hcond] at hm' ⊢
          rcases List.mem_append.mp hm' with hx | hx
          · exact hcm m' hx
          · have hmm := List.mem_singleton.mp hx
            subst hmm
            exact ((beq_iff_eq).mp hcond).symm
        · rw [if_neg hcond] at hm' ⊢
          exact hcm m' hm'
      · simp [step, onModeChange, ht]
      · simp [step, onModeChange, ht]
    · have hchans : (step lc s (.evModeChange sid target nick modes params
          uid ts)).1.channels = s.channels := by
        simp [step, onModeChange, ht]
      have hsrv2 : (step lc s (.evModeChange sid target nick modes params
          uid ts)).1.activeServer = s.activeServer := by
        simp [step, onModeChange, ht]
      refine ⟨channelMsgInv_same hch hchans, ?_⟩
      unfold ServerLogInv
      rw [hsrv2]
      cases hs : s.activeServer with
      | none => trivial
      | some srv =>
        have hsid : sid = srv.id := by
          have := hco
          unfold EvCoherent sidOk at this
          rw [hs] at this
          exact this
        subst hsid
        have hlog : (step lc s (.evModeChange srv.id target nick modes
            params uid ts)).1.serverLogMessages
            = s.serverLogMessages ++
              [{ id := uid, timestamp := ts, nickname := some nick,
                 content := "Mode change: " ++ target ++ " [" ++ modes
                   ++ (if params.length > 0 then
                         " " ++ jsJoinSpace params
                       else "")
                   ++ "] by " ++ nick,
                 type := .mode, channelId := srv.id,
                 target := target, modeParams := some params }] := by
          simp [step, onModeChange, ht]
        rw [hlog]
        intro m hm
        rcases List.mem_append.mp hm with hx | hx
        · have := hsl
          unfold ServerLogInv at this
          rw [hs] at this
          exact this m hx
        · have hmm := List.mem_singleton.mp hx
          subst hmm
          rfl
  | evKick sid channel nick byNick reason uid ts =>
    have hchan : ∀ t : ClientState,
        t.channels = s.channels.map (fun c =>
          if c.id == sid ++ channel then
            { c with
                users := c.users.filter (fun u =>
                  jsToLower u.nickname != jsToLower nick),
                messages := c.messages ++
                  [{ id := uid, timestamp := ts, nickname := some byNick,
                     kicked := some nick, kickReason := reason,
                     content := nick ++ " was kicked from " ++ channel ++
                       " by " ++ byNick ++ " (" ++
                       jsOrStr reason "No reason" ++ ")",
                     type := .kick, channelId := sid ++ channel,
                     target := channel }] }
          else c) → ChannelMsgInv t := by
      intro t htc ch hc m hm
      rw [htc] at hc
      refine channelMsgInv_map ?_ hch ch hc m hm
      intro c hcm m' hm'
      dsimp only at hm' ⊢
      by_cases hcond : (c.id == sid ++ channel) = true
      · rw [if_pos hcond] at hm' ⊢
        rcases List.mem_append.mp hm' with hx | hx
        · exact hcm m' hx
        · have hmm := List.mem_singleton.mp hx
          subst hmm
          exact ((beq_iff_eq).mp hcond).symm
      · rw [if_neg hcond] at hm' ⊢
        exact hcm m' hm'
    have hsrv2 : (step lc s (.evKick sid channel nick byNick reason uid
        ts)).1.activeServer = s.activeServer := by
      cases hs : s.activeServer with
      | none => simp [step, onKick, hs]
      | some srv =>
        by_cases hl : (jsToLower nick == jsToLower srv.nickname) = true
        · by_cases hac : (s.activeChannelId == some (sid ++ channel)) = true
          · simp [step, onKick, hs, hl, hac]
          · simp only [step, onKick, hs]
            first | dsimp only | skip
            rw [if_pos hl, if_neg (by simpa using hac)]
        · simp only [step, onKick, hs]
          first | dsimp only | skip
          rw [if_neg hl]
    have hlog : (step lc s (.evKick sid channel nick byNick reason uid
        ts)).1.serverLogMessages = s.serverLogMessages := by
      cases hs : s.activeServer with
      | none => simp [step, onKick, hs]
      | some srv =>
        by_cases hl : (jsToLower nick == jsToLower srv.nickname) = true
        · by_cases hac : (s.activeChannelId == some (sid ++ channel)) = true
          · simp [step, onKick, hs, hl, hac]
          · simp only [step, onKick, hs]
            first | dsimp only | skip
            rw [if_pos hl, if_neg (by simpa using hac)]
        · simp only [step, onKick, hs]
          first | dsimp only | skip
          rw [if_neg hl]
    have hchans : (step lc s (.evKick sid channel nick byNick reason uid
        ts)).1.channels
        = s.channels.map (fun c =>
          if c.id == sid ++ channel then
            { c with
                users := c.users.filter (fun u =>
                  jsToLower u.nickname != jsToLower nick),
                messages := c.messages ++
                  [{ id := uid, timestamp := ts, nickname := some byNick,
                     kicked := some nick, kickReason := reason,
                     content := nick ++ " was kicked from " ++ channel ++
                       " by " ++ byNick ++ " (" ++
                       jsOrStr reason "No reason" ++ ")",
                     type := .kick, channelId := sid ++ channel,
                     target := channel }] }
          else c) := by
      cases hs : s.activeServer with
      | none => simp [step, onKick, hs]
      | some srv =>
        by_cases hl : (jsToLower nick == jsToLower srv.nickname) = true
        · by_cases hac : (s.activeChannelId == some (sid ++ channel)) = true
          · simp [step, onKick, hs, hl, hac]
          · simp only [step, onKick, hs]
            first | dsimp only | skip
            rw [if_pos hl, if_neg (by simpa using hac)]
        · simp only [step, onKick, hs]
          first | dsimp only | skip
          rw [if_neg hl]
    exact ⟨hchan _ hchans, serverLogInv_same hsl hsrv2 hlog⟩


/-- Witness for C1 at a concrete kick event. -/
theorem step_messages_append_only_witness :
    MessagesExtend fixState.channels
      ((step lcModel fixState (Ev.evKick "chat.example:6667" "#test" "bob"
        "alice" (some "spam") "u5" 9)).1.channels) :=
  step_messages_append_only lcModel fixState
    (Ev.evKick "chat.example:6667" "#test" "bob" "alice" (some "spam")
      "u5" 9) (by decide)

/-- Witness for C2 at the concrete example list. -/
theorem discovery_end_sorting_witness :
    (onAvailableChannelsEnd lcModel fixDiscoveryState).availableChannels
      = fixDiscoveryState.availableChannels.mergeSort specDiscoveryLE :=
  (discovery_end_sorting fixDiscoveryState).1

/-- Witness for C3 at a concrete nick change. -/
theorem nick_change_rewrites_members_witness :
    (onNickChange fixState "alice" "alicia" [] "u7" 7).channels.length
      = fixState.channels.length :=
  (nick_change_rewrites_members fixState "alice" "alicia" [] "u7" 7).1

/-- Witness for C4 at a concrete private message. -/
theorem private_message_witness :
    (svcMessageEvent "chat.example:6667" "Alice2" "bob" "hi" (some "bob")
      "u4" 8).channelId = "chat.example:6667" ++ jsToLower "Alice2" :=
  (private_message_creates_or_appends fixState fixServer
    "chat.example:6667" "Alice2" "bob" "hi" (some "bob") "u4" 8
    (by decide) (by decide) (by decide) (by decide)).1

/-- Witness for C5 at a concrete kick. -/
theorem kick_removes_member_witness :
    (onKick fixState "chat.example:6667" "#test" "bob" "alice"
      (some "spam") "u5" 9).1.channels.length = fixState.channels.length :=
  (kick_removes_member_and_appends fixState fixServer "chat.example:6667"
    "#test" "bob" "alice" (some "spam") "u5" 9 (by decide)).1

/-- Witness for C7 at two case-differing joins. -/
theorem joinChannel_twice_witness :
    (executeJoinChannel (executeJoinChannel fixState "Chat" "u2" 6).1
      "#CHAT" "u3" 7).2
      = [Effect.toastAlreadyJoined (properChannelName "#CHAT")] :=
  (joinChannel_twice_case_insensitive fixState fixServer "Chat" "#CHAT"
    "u2" "u3" 6 7 (by decide) (by decide) (by decide) (by decide)
    (by decide)).1

/-- Witness for the amended C8 at a concrete disconnect. -/
theorem disconnect_clears_witness :
    connState (onDisconnect fixState "chat.example:6667" (some "bye")
      "u8" 8).1 = ConnState.Disconnected :=
  (disconnect_clears_error_classifies fixState fixServer
    "chat.example:6667" "SocketError" "boom" (some "bye") "u8" 8
    (by decide) (by decide)).1.1

/-- Witness for the amended C9 at the connecting fixture. -/
theorem connect_resets_witness :
    (handleConnect fixConnectingState fixDetails "u-new" 3).1.channels
      = [] :=
  (connect_resets_and_forwards fixConnectingState fixDetails "u-new" 3
    (by decide)).1

/-- Witness for C10 at a concrete connect event. -/
theorem step_preserves_channelId_witness :
    ChannelMsgInv (step lcModel fixState
      (Ev.evConnect "chat.example:6667" "u1" 1)).1 :=
  (step_preserves_channelId lcModel fixState
    (Ev.evConnect "chat.example:6667" "u1" 1)
    (by unfold ChannelMsgInv; decide)
    (by simp [ServerLogInv, fixState])
    (by simp [EvCoherent, sidOk, fixState, fixServer])).1
